import Mathlib

/-!
Verification development for the `student-council-shrimp-game-checkin`
photo-booth kiosk (Rust, iced).  The capture session controller
(`src/frontend/main_app.rs`), the strip compositor
(`src/backend/render_take.rs`) and the camera-feed option handling
(`src/frontend/camera_feed.rs`) are shallowly embedded below.

Modelling conventions:
* an `Img` is a pixel buffer: width, height and a pixel lookup function;
  the library resampler (`image::imageops::resize`) is modelled as a
  deterministic sampler producing an image of exactly the requested
  dimensions;
* Rust panics (`expect`, `unwrap`, `assert!`, out-of-bounds indexing,
  debug-mode integer underflow) are modelled by `Option`: `none` means
  the handler panics;
* `iced` timelines are wall-clock driven; a `Tick` message carries the
  boolean outcome of `timeline.update().is_completed()` for the (at most
  two) timelines the current phase consults;
* spawned `iced::Task`s are reified as a `Cmd` value returned next to
  the new state; the synchronous blocking camera capture performed by
  the `CaptureStill` handler receives its device result as the message
  payload.
-/

namespace PhotoBooth

/-- A pixel buffer with explicit dimensions (models `image::RgbaImage`).
Pixels are abstract values indexed by (x, y). -/
structure Img where
  width : Nat
  height : Nat
  pix : Nat → Nat → Nat

/-- Model of `image::imageops::resize` (geometry-faithful: the output has
exactly the requested dimensions and samples the source). -/
def resize (img : Img) (w h : Nat) : Img :=
  ⟨w, h, fun x y => img.pix (x * img.width / w) (y * img.height / h)⟩

/-- Unconditional paste of `top` onto `base` at offset (x, y). -/
def overlay (base top : Img) (x y : Nat) : Img :=
  ⟨base.width, base.height, fun px py =>
    if x ≤ px ∧ px < x + top.width ∧ y ≤ py ∧ py < y + top.height then
      top.pix (px - x) (py - y)
    else
      base.pix px py⟩

/-- Model of `image::GenericImage::copy_from`: fails (the source `unwrap`s, i.e.
panics) when the pasted image does not fit inside the base. -/
def copyFrom (base top : Img) (x y : Nat) : Option Img :=
  if x + top.width ≤ base.width ∧ y + top.height ≤ base.height then
    some (overlay base top x y)
  else
    none

/-- One slot of `render_take`'s loop body: resample the photo to the
fixed 2000 x 1333 slot size and paste it at x = 134, y = 134 + i * 1466. -/
def placeSlot (strip : Img) (i : Nat) (photo : Img) : Option Img :=
  copyFrom strip (resize photo 2000 1333) 134 (134 + i * 1466)

/-- The compositor `render_take` (src/backend/render_take.rs).  The template canvas is
the loaded `template.png` asset, passed as a parameter because the binary
asset is not part of the sources.  `none` models the `assert!` panic for
a photo count other than 4 and the `copy_from(..).unwrap()` panic. -/
def render_take (template : Img) (photos : List Img) : Option Img :=
  if photos.length = 4 then
    (photos.enum.foldl (fun acc ip => acc.bind fun s => placeSlot s ip.1 ip.2)
        (some template)).map
      fun strip => resize strip (strip.width / 3) (strip.height / 3)
  else
    none

/-- The fully pasted canvas for four photos, before the final 1/3
downscale (the unfolded loop of `render_take`). -/
def renderCanvas (template p0 p1 p2 p3 : Img) : Img :=
  overlay
    (overlay
      (overlay
        (overlay template (resize p0 2000 1333) 134 134)
        (resize p1 2000 1333) 134 1600)
      (resize p2 2000 1333) 134 3066)
    (resize p3 2000 1333) 134 4532

/-- Model of `CameraFeedOptions` (src/frontend/camera_feed.rs).  `blur` and the
aspect ratio are `f32` in the source; the two values the controller ever
uses (1.0 / 20.0, 3.0/2.0) are represented exactly in `ℚ`. -/
structure CameraFeedOptions where
  radius : Nat
  mirror : Bool
  aspectRatio : Option ℚ
  blur : ℚ
deriving DecidableEq

/-- The `CameraFeed` state relevant to the controller: the latest preview
frame and the display options. -/
structure Feed where
  currentFrame : Option Img
  options : CameraFeedOptions

/-- Model of `CameraMessage` (src/frontend/camera_feed.rs). -/
inductive CameraMessage where
  | CaptureFrame : CameraMessage
  | NewFrame : Img → CameraMessage

/-- The `KeyMessage` variants as consumed by `MainApp::update`. -/
inductive KeyMessage where
  | Space : KeyMessage
  | Up : KeyMessage
  | Down : KeyMessage
  | Escape : KeyMessage
deriving DecidableEq

/-- Sub-state of the four-shot capture ritual (`CapturePhotosState`). -/
inductive CapturePhotosState where
  | Countdown : Nat → CapturePhotosState
  | Capture : CapturePhotosState
  | Preview : Img → CapturePhotosState

/-- The `MainAppState` controller phases.  Timelines are wall-clock
objects whose only controller-visible output is completion, so they are
not stored. -/
inductive MainAppState where
  | PaymentRequired : Option String → MainAppState
  | Preview : MainAppState
  | CapturePhotosPrepare : MainAppState
  | CapturePhotos : Nat → CapturePhotosState → MainAppState
  | RenderedPreview : MainAppState
  | EmailEntry : MainAppState
  | Emailing : MainAppState

/-- The `MainAppMessage` events (generic over the backend's upload handle type `H`).
`Tick` carries the completion oracle of the currently active timeline(s);
`CaptureStill` carries the result of the synchronous device capture that
the handler performs. -/
inductive MainAppMessage (H : Type) where
  | Camera : CameraMessage → MainAppMessage H
  | Tick : Bool → Bool → MainAppMessage H
  | KeyReleased : KeyMessage → MainAppMessage H
  | CaptureStill : Except String Img → MainAppMessage H
  | Uploaded : Except String H → MainAppMessage H
  | Emailed : Except String Bool → MainAppMessage H
  | OtherKeyPress : MainAppMessage H
  | EmailInput : String → MainAppMessage H
  | EmailSubmit : MainAppMessage H

/-- The asynchronous work a call to `update` spawns (reified `iced::Task`). -/
inductive Cmd (H : Type) where
  | none : Cmd H
  | cameraTask : Cmd H
  | captureStill : Cmd H
  | upload : Img → List Img → Cmd H
  | sendEmail : H → List String → Cmd H
  | focusEmailInput : Cmd H

/-- The `MainApp` struct fields the controller reads or writes
(`logo_handle` and `new_page` are never touched by `update`). -/
structure MainApp (H : Type) where
  feed : Feed
  state : MainAppState
  captured_photos : List Img
  previews : List Img
  strip : Option Img
  strip_handle : Option Img
  emails : List String
  upload_handle : Option H
  qr_code_data : Option String

/-- Initial state built by `MainApp::new`. -/
def initApp (H : Type) (feed : Feed) : MainApp H :=
  { feed := feed
    state := .PaymentRequired none
    captured_photos := []
    previews := []
    strip := none
    strip_handle := none
    emails := []
    upload_handle := none
    qr_code_data := none }

/-- Is the current phase in the capture family (live-preview styling)? -/
def captureFamily : MainAppState → Bool
  | .CapturePhotosPrepare => true
  | .CapturePhotos _ _ => true
  | .Preview => true
  | _ => false

/-- The feed options `MainApp::update` recomputes at its start, as a pure
function of the current phase. -/
def optionsFor (s : MainAppState) : CameraFeedOptions :=
  if captureFamily s then
    { radius := 0, mirror := true, aspectRatio := some ((3 : ℚ) / 2), blur := 1 }
  else
    { radius := 0, mirror := true, aspectRatio := none, blur := 20 }

/-- The unconditional `self.feed.update_options(..)` at the top of
`MainApp::update`. -/
def applyOptions (H : Type) (app : MainApp H) : MainApp H :=
  { app with feed := { app.feed with options := optionsFor app.state } }

/-- Error message shown when the upload fails. -/
def uploadErrMsg : String := "The photos could not be uploaded. Please try again."

/-- Error message shown when emailing fails. -/
def emailErrMsg : String := "The photos could not be emailed. Please try again."

/-- Error message shown when some recipients could not be reached. -/
def emailPartialErrMsg : String :=
  "Some email addresses provided could not be reached. Please contact photobooth@caj.ac.jp for assistance."

/-- The message dispatch of `MainApp::update` (everything after the
`update_options` call).  `getLink` models `ServerBackend::get_link`,
`template` the loaded strip template asset.  `none` models a panic. -/
def updateCore (H : Type) (getLink : H → String) (template : Img)
    (app : MainApp H) (msg : MainAppMessage H) : Option (MainApp H × Cmd H) :=
  match msg with
  | .Camera cm =>
    match cm with
    | .CaptureFrame => some (app, .cameraTask)
    | .NewFrame f =>
      some ({ app with feed := { app.feed with currentFrame := some f } }, .cameraTask)
  | .CaptureStill res =>
    match res with
    | .error _ => none
    | .ok image =>
      let app := { app with captured_photos := app.captured_photos ++ [image] }
      let app :=
        match app.state with
        | .CapturePhotos cur _ => { app with state := .CapturePhotos cur .Capture }
        | _ => app
      some (app, .none)
  | .Tick tl1 tl2 =>
    match app.state with
    | .CapturePhotosPrepare =>
      if tl1 then
        some ({ app with state := .CapturePhotos 0 (.Countdown 3) }, .none)
      else
        some (app, .none)
    | .CapturePhotos shot sub =>
      match sub with
      | .Countdown c =>
        if tl1 then
          if c = 0 then
            none
          else if c - 1 = 0 then
            some ({ app with state := .CapturePhotos shot .Capture }, .captureStill)
          else
            some ({ app with state := .CapturePhotos shot (.Countdown (c - 1)) }, .none)
        else
          some (app, .none)
      | .Capture =>
        if tl1 then
          match app.captured_photos.getLast? with
          | none => none
          | some lastPhoto =>
            some ({ app with state := .CapturePhotos shot (.Preview lastPhoto) }, .none)
        else
          some (app, .none)
      | .Preview _ =>
        if tl1 then
          if shot + 1 < 4 then
            some ({ app with state := .CapturePhotos (shot + 1) (.Countdown 3) }, .none)
          else
            let old := app.captured_photos
            match render_take template old with
            | none => none
            | some strip =>
              some
                ({ app with
                    captured_photos := []
                    previews := old
                    strip := some strip
                    strip_handle := some strip
                    upload_handle := none
                    qr_code_data := none
                    state := .RenderedPreview },
                  .upload strip old)
        else
          some (app, .none)
    | .RenderedPreview =>
      if tl1 && tl2 then
        some ({ app with state := .EmailEntry, emails := [""] }, .focusEmailInput)
      else
        some (app, .none)
    | _ => some (app, .none)
  | .Uploaded res =>
    match res with
    | .ok h =>
      some ({ app with upload_handle := some h, qr_code_data := some (getLink h) }, .none)
    | .error _ =>
      some ({ app with state := .PaymentRequired (some uploadErrMsg) }, .none)
  | .KeyReleased key =>
    match app.state with
    | .PaymentRequired _ =>
      match key with
      | .Up => some (app, .none)
      | .Down => some (app, .none)
      | .Space => some ({ app with state := .Preview }, .none)
      | .Escape => some (app, .focusEmailInput)
    | .Preview =>
      some ({ app with state := .CapturePhotosPrepare }, .none)
    | .RenderedPreview => some (app, .none)
    | .EmailEntry => some (app, .focusEmailInput)
    | _ => some (app, .none)
  | .OtherKeyPress => some (app, .focusEmailInput)
  | .EmailInput email =>
    if app.emails.isEmpty then
      some ({ app with emails := [email] }, .none)
    else
      some ({ app with emails := app.emails.set 0 email }, .none)
  | .EmailSubmit =>
    if app.upload_handle.isNone then
      some (app, .none)
    else
      match app.emails with
      | [] => none
      | e0 :: rest =>
        if e0.length > 0 then
          some ({ app with emails := "" :: e0 :: rest }, .none)
        else if rest.isEmpty then
          some ({ app with emails := rest, state := .PaymentRequired none }, .none)
        else
          match app.upload_handle with
          | some h =>
            some
              ({ app with
                  upload_handle := none
                  state := .Emailing
                  emails := []
                  strip_handle := none
                  strip := none },
                .sendEmail h rest)
          | none =>
            some ({ app with emails := rest, state := .PaymentRequired (some emailErrMsg) },
              .none)
  | .Emailed res =>
    match app.state with
    | .Emailing =>
      match res with
      | .ok true => some ({ app with state := .PaymentRequired none }, .none)
      | .ok false =>
        some ({ app with state := .PaymentRequired (some emailPartialErrMsg) }, .none)
      | .error _ =>
        some ({ app with state := .PaymentRequired (some emailErrMsg) }, .none)
    | _ => some (app, .none)

/-- The handler `MainApp::update`: recompute the feed options from the current phase,
then dispatch on the message. -/
def update (H : Type) (getLink : H → String) (template : Img)
    (app : MainApp H) (msg : MainAppMessage H) : Option (MainApp H × Cmd H) :=
  updateCore H getLink template (applyOptions H app) msg

/-! Basic projection lemmas for the image operations. -/

@[simp] theorem resize_width (i : Img) (w h : Nat) : (resize i w h).width = w := rfl

@[simp] theorem resize_height (i : Img) (w h : Nat) : (resize i w h).height = h := rfl

@[simp] theorem overlay_width (b tp : Img) (x y : Nat) : (overlay b tp x y).width = b.width := rfl

@[simp] theorem overlay_height (b tp : Img) (x y : Nat) : (overlay b tp x y).height = b.height := rfl

theorem overlay_pix (b tp : Img) (x y px py : Nat) :
    (overlay b tp x y).pix px py =
      if x ≤ px ∧ px < x + tp.width ∧ y ≤ py ∧ py < y + tp.height then
        tp.pix (px - x) (py - y)
      else
        b.pix px py := rfl

/-! Concrete fixtures used by witnesses. -/

/-- A 1 x 1 test photograph. -/
def img1 : Img := ⟨1, 1, fun _ _ => 0⟩

/-- A concrete stand-in for the strip template canvas, large enough for
the four 2000 x 1333 slots. -/
def t0 : Img := ⟨2268, 5999, fun _ _ => 0⟩

/-- A concrete stand-in for `ServerBackend::get_link` over `H = String`. -/
def gl0 : String → String := fun h => h

theorem placeSlot_eq (t s : Img) (i : Nat) (p : Img)
    (h1 : s.width = t.width) (h2 : s.height = t.height) (h3 : i ≤ 3)
    (hw : 2134 ≤ t.width) (hh : 5865 ≤ t.height) :
    placeSlot s i p = some (overlay s (resize p 2000 1333) 134 (134 + i * 1466)) := by
  unfold placeSlot copyFrom
  split
  · rfl
  · rename_i hcond
    exfalso
    apply hcond
    simp only [resize_width, resize_height, h1, h2]
    omega

/-- C5: the compositor is a deterministic pure function of the four
photographs: it pastes each photo, resampled to the 2000 x 1333 slot size,
at x = 134 and y = 134 + 1466 * i on the template canvas, then downscales
the result uniformly by the factor 3; any photo count other than 4 is
rejected. -/
theorem c5_render_take_geometry (t p0 p1 p2 p3 : Img)
    (hw : 2134 ≤ t.width) (hh : 5865 ≤ t.height) :
    render_take t [p0, p1, p2, p3] =
        some (resize (renderCanvas t p0 p1 p2 p3) (t.width / 3) (t.height / 3)) ∧
      (renderCanvas t p0 p1 p2 p3).width = t.width ∧
      (renderCanvas t p0 p1 p2 p3).height = t.height ∧
      (∀ dx dy, dx < 2000 → dy < 1333 →
        (renderCanvas t p0 p1 p2 p3).pix (134 + dx) (134 + dy) =
          (resize p0 2000 1333).pix dx dy) ∧
      (∀ dx dy, dx < 2000 → dy < 1333 →
        (renderCanvas t p0 p1 p2 p3).pix (134 + dx) (1600 + dy) =
          (resize p1 2000 1333).pix dx dy) ∧
      (∀ dx dy, dx < 2000 → dy < 1333 →
        (renderCanvas t p0 p1 p2 p3).pix (134 + dx) (3066 + dy) =
          (resize p2 2000 1333).pix dx dy) ∧
      (∀ dx dy, dx < 2000 → dy < 1333 →
        (renderCanvas t p0 p1 p2 p3).pix (134 + dx) (4532 + dy) =
          (resize p3 2000 1333).pix dx dy) ∧
      (∀ ps : List Img, ps.length ≠ 4 → render_take t ps = none) ∧
      (∀ qs : List Img, [p0, p1, p2, p3] = qs →
        render_take t [p0, p1, p2, p3] = render_take t qs) := by
  have hp0 : placeSlot t 0 p0 = some (overlay t (resize p0 2000 1333) 134 134) := by
    have h := placeSlot_eq t t 0 p0 rfl rfl (by omega) hw hh
    simpa using h
  set c1 : Img := overlay t (resize p0 2000 1333) 134 134 with hc1
  have hp1 : placeSlot c1 1 p1 = some (overlay c1 (resize p1 2000 1333) 134 1600) := by
    have h := placeSlot_eq t c1 1 p1 rfl rfl (by omega) hw hh
    simpa using h
  set c2 : Img := overlay c1 (resize p1 2000 1333) 134 1600 with hc2
  have hp2 : placeSlot c2 2 p2 = some (overlay c2 (resize p2 2000 1333) 134 3066) := by
    have h := placeSlot_eq t c2 2 p2 rfl rfl (by omega) hw hh
    simpa using h
  set c3 : Img := overlay c2 (resize p2 2000 1333) 134 3066 with hc3
  have hp3 : placeSlot c3 3 p3 = some (overlay c3 (resize p3 2000 1333) 134 4532) := by
    have h := placeSlot_eq t c3 3 p3 rfl rfl (by omega) hw hh
    simpa using h
  set c4 : Img := overlay c3 (resize p3 2000 1333) 134 4532 with hc4
  have hcanvas : renderCanvas t p0 p1 p2 p3 = c4 := rfl
  have hfold :
      ([p0, p1, p2, p3].enum.foldl
          (fun acc ip => acc.bind fun s => placeSlot s ip.1 ip.2) (some t)) = some c4 := by
    have henum : ([p0, p1, p2, p3] : List Img).enum = [(0, p0), (1, p1), (2, p2), (3, p3)] := rfl
    rw [henum]
    simp only [List.foldl, Option.some_bind]
    rw [hp0, Option.some_bind, hp1, Option.some_bind, hp2, Option.some_bind, hp3]
  refine ⟨?_, rfl, rfl, ?_, ?_, ?_, ?_, ?_, ?_⟩
  · unfold render_take
    rw [if_pos (show ([p0, p1, p2, p3] : List Img).length = 4 from rfl), hfold]
    rfl
  · intro dx dy hdx hdy
    rw [hcanvas, hc4, overlay_pix, if_neg (by simp only [resize_width, resize_height]; omega),
      hc3, overlay_pix, if_neg (by simp only [resize_width, resize_height]; omega),
      hc2, overlay_pix, if_neg (by simp only [resize_width, resize_height]; omega),
      hc1, overlay_pix, if_pos (by simp only [resize_width, resize_height]; omega)]
    have hx : 134 + dx - 134 = dx := by omega
    have hy : 134 + dy - 134 = dy := by omega
    rw [hx, hy]
  · intro dx dy hdx hdy
    rw [hcanvas, hc4, overlay_pix, if_neg (by simp only [resize_width, resize_height]; omega),
      hc3, overlay_pix, if_neg (by simp only [resize_width, resize_height]; omega),
      hc2, overlay_pix, if_pos (by simp only [resize_width, resize_height]; omega)]
    have hx : 134 + dx - 134 = dx := by omega
    have hy : 1600 + dy - 1600 = dy := by omega
    rw [hx, hy]
  · intro dx dy hdx hdy
    rw [hcanvas, hc4, overlay_pix, if_neg (by simp only [resize_width, resize_height]; omega),
      hc3, overlay_pix, if_pos (by simp only [resize_width, resize_height]; omega)]
    have hx : 134 + dx - 134 = dx := by omega
    have hy : 3066 + dy - 3066 = dy := by omega
    rw [hx, hy]
  · intro dx dy hdx hdy
    rw [hcanvas, hc4, overlay_pix, if_pos (by simp only [resize_width, resize_height]; omega)]
    have hx : 134 + dx - 134 = dx := by omega
    have hy : 4532 + dy - 4532 = dy := by omega
    rw [hx, hy]
  · intro ps hne
    unfold render_take
    rw [if_neg hne]
  · intro qs h
    rw [h]

/-- Witness for C5 at a concrete template and four concrete photos. -/
theorem c5_witness :
    render_take t0 [img1, img1, img1, img1] =
        some (resize (renderCanvas t0 img1 img1 img1 img1) (t0.width / 3) (t0.height / 3)) ∧
      (renderCanvas t0 img1 img1 img1 img1).pix (134 + 5) (3066 + 7) =
        (resize img1 2000 1333).pix 5 7 ∧
      render_take t0 [img1, img1] = none :=
  ⟨(c5_render_take_geometry t0 img1 img1 img1 img1 (by decide) (by decide)).1,
    (c5_render_take_geometry t0 img1 img1 img1 img1 (by decide) (by decide)).2.2.2.2.2.1 5 7
      (by decide) (by decide),
    (c5_render_take_geometry t0 img1 img1 img1 img1 (by decide) (by decide)).2.2.2.2.2.2.2.1
      [img1, img1] (by decide)⟩

/-! Controller helper lemmas and fixtures. -/

/-- When the stored feed options already agree with the current phase, the
`update_options` call at the top of `update` is the identity. -/
theorem applyOptions_eq (H : Type) (app : MainApp H)
    (hopt : app.feed.options = optionsFor app.state) : applyOptions H app = app := by
  unfold applyOptions
  rw [← hopt]

theorem update_eq (H : Type) (gl : H → String) (t : Img) (app : MainApp H)
    (msg : MainAppMessage H) (hopt : app.feed.options = optionsFor app.state) :
    update H gl t app msg = updateCore H gl t app msg := by
  unfold update
  rw [applyOptions_eq H app hopt]

/-- Boolean phase discriminator: is the phase the Gated one? -/
def isPaymentRequired : MainAppState → Bool
  | .PaymentRequired _ => true
  | _ => false

/-- Boolean phase discriminator: is the phase the email-entry one? -/
def isEmailEntry : MainAppState → Bool
  | .EmailEntry => true
  | _ => false

/-- Builds a concrete `MainApp` over `H = String` with options consistent
with the phase, for witnesses and counterexamples. -/
def mkApp (st : MainAppState) (photos : List Img) (strip : Option Img)
    (emails : List String) (uh : Option String) : MainApp String :=
  { feed := ⟨none, optionsFor st⟩
    state := st
    captured_photos := photos
    previews := []
    strip := strip
    strip_handle := strip
    emails := emails
    upload_handle := uh
    qr_code_data := none }

/-- C3 (code bug evidence): a failed still capture is unwrapped with
`expect`, so the handler panics in every phase instead of transitioning
to Gated with the error flag. -/
theorem c3_capture_failure_panics (H : Type) (gl : H → String) (t : Img)
    (app : MainApp H) (e : String) :
    update H gl t app (.CaptureStill (.error e)) = none := rfl

/-- C4: after an upload error the session is Gated with the error flag
set and the upload handle still unset, and a subsequent email submission
is refused because no upload handle exists: no state change and no
dispatched command. -/
theorem c4_upload_error_then_submit_refused (H : Type) (gl : H → String) (t : Img)
    (app : MainApp H) (e : String)
    (hopt : app.feed.options = optionsFor app.state)
    (hnone : app.upload_handle = none)
    (hfam : captureFamily app.state = false) :
    update H gl t app (.Uploaded (.error e)) =
        some ({ app with state := .PaymentRequired (some uploadErrMsg) }, .none) ∧
      ({ app with state := .PaymentRequired (some uploadErrMsg) } : MainApp H).upload_handle =
        none ∧
      update H gl t { app with state := .PaymentRequired (some uploadErrMsg) } .EmailSubmit =
        some ({ app with state := .PaymentRequired (some uploadErrMsg) }, .none) ∧
      update H gl t app .EmailSubmit = some (app, .none) := by
  obtain ⟨⟨fr, op⟩, st, cp, pv, sp, sh, em, uh, qr⟩ := app
  simp only at hopt hnone hfam
  subst hopt
  subst hnone
  have hidle : optionsFor st = optionsFor (.PaymentRequired (some uploadErrMsg)) := by
    unfold optionsFor
    rw [hfam]
    rfl
  refine ⟨rfl, rfl, ?_, ?_⟩
  · show some _ = _
    rw [hidle]
    rfl
  · rfl

/-- Witness for C4 at a concrete Gated-after-upload-failure session. -/
theorem c4_witness :
    update String gl0 t0 (mkApp .RenderedPreview [] (some img1) [] none)
        (.Uploaded (.error "network error")) =
      some
        ({ mkApp .RenderedPreview [] (some img1) [] none with
            state := .PaymentRequired (some uploadErrMsg) },
          .none) :=
  (c4_upload_error_then_submit_refused String gl0 t0
    (mkApp .RenderedPreview [] (some img1) [] none) "network error" rfl rfl rfl).1

/-- C6 counterexample: in the Gated phase with the error flag set (the
situation the claim reserves for a failed eligibility check), a confirm
(Space) key release still advances the session to Preview, and no backend
command is issued — the handler never consults any eligibility check, so
the session does not remain Gated. -/
theorem c6_counterexample :
    (update String gl0 t0 (mkApp (.PaymentRequired (some "not eligible")) [] none [] none)
          (.KeyReleased .Space)).map
        (fun o => (isPaymentRequired o.1.state, o.2)) =
        some (false, .none) ∧
      isPaymentRequired (mkApp (.PaymentRequired (some "not eligible")) [] none [] none).state =
        true :=
  ⟨rfl, rfl⟩

/-- C6 amended: from the Gated phase, a confirm (Space) key release
always advances the session to Preview, unconditionally: no eligibility
check is consulted (no backend command is spawned) and the stored error
flag is discarded with the phase change. -/
theorem c6_space_always_advances (H : Type) (gl : H → String) (t : Img)
    (app : MainApp H) (err : Option String)
    (hopt : app.feed.options = optionsFor app.state)
    (hS : app.state = .PaymentRequired err) :
    update H gl t app (.KeyReleased .Space) = some ({ app with state := .Preview }, .none) := by
  obtain ⟨⟨fr, op⟩, st, cp, pv, sp, sh, em, uh, qr⟩ := app
  simp only at hopt hS
  subst hS
  subst hopt
  rfl

/-- Witness for the amended C6 at a concrete Gated session. -/
theorem c6_witness :
    update String gl0 t0 (mkApp (.PaymentRequired none) [] none [] none)
        (.KeyReleased .Space) =
      some ({ mkApp (.PaymentRequired none) [] none [] none with state := .Preview }, .none) :=
  c6_space_always_advances String gl0 t0 (mkApp (.PaymentRequired none) [] none [] none)
    none rfl rfl

/-- C2 counterexample: a late capture completion delivered in the Gated
phase still appends the photograph to the session's captured list (the
handler pushes before checking the phase), and an upload error delivered
in the Preview phase moves the session to Gated — so late completions are
not state-preserving no-ops. -/
theorem c2_counterexample :
    (update String gl0 t0 (mkApp (.PaymentRequired none) [] none [] none)
          (.CaptureStill (.ok img1))).map
        (fun o => o.1.captured_photos.length) =
        some 1 ∧
      (mkApp (.PaymentRequired none) [] none [] none).captured_photos.length = 0 ∧
      (update String gl0 t0 (mkApp .Preview [] none [] none)
          (.Uploaded (.error "slow network"))).map
        (fun o => isPaymentRequired o.1.state) =
        some true ∧
      isPaymentRequired (mkApp .Preview [] none [] none).state = false :=
  ⟨rfl, rfl, rfl, rfl⟩

/-- C2 amended: a capture completion received outside the CapturePhotos
phase leaves the phase unchanged but still appends the photograph to the
captured list (and the handler panics when the capture failed, see C3);
upload results are not phase-checked at all: a success stores the handle
and QR data in whatever phase the session is in, and a failure sends any
phase to Gated with the error flag set.  Only notification completions
are phase-checked. -/
theorem c2_late_completions (H : Type) (gl : H → String) (t : Img) :
    (∀ (app : MainApp H) (i : Img),
        app.feed.options = optionsFor app.state →
        (∀ cur sub, app.state ≠ .CapturePhotos cur sub) →
        update H gl t app (.CaptureStill (.ok i)) =
          some ({ app with captured_photos := app.captured_photos ++ [i] }, .none)) ∧
      (∀ (app : MainApp H) (h : H),
        app.feed.options = optionsFor app.state →
        update H gl t app (.Uploaded (.ok h)) =
          some ({ app with upload_handle := some h, qr_code_data := some (gl h) }, .none)) ∧
      (∀ (app : MainApp H) (e : String),
        app.feed.options = optionsFor app.state →
        update H gl t app (.Uploaded (.error e)) =
          some ({ app with state := .PaymentRequired (some uploadErrMsg) }, .none)) := by
  refine ⟨?_, ?_, ?_⟩
  · intro app i hopt hnc
    obtain ⟨⟨fr, op⟩, st, cp, pv, sp, sh, em, uh, qr⟩ := app
    simp only at hopt hnc
    subst hopt
    cases st with
    | CapturePhotos cur sub => exact absurd rfl (hnc cur sub)
    | PaymentRequired err => rfl
    | Preview => rfl
    | CapturePhotosPrepare => rfl
    | RenderedPreview => rfl
    | EmailEntry => rfl
    | Emailing => rfl
  · intro app h hopt
    obtain ⟨⟨fr, op⟩, st, cp, pv, sp, sh, em, uh, qr⟩ := app
    simp only at hopt
    subst hopt
    rfl
  · intro app e hopt
    obtain ⟨⟨fr, op⟩, st, cp, pv, sp, sh, em, uh, qr⟩ := app
    simp only at hopt
    subst hopt
    rfl

/-- Witness for the amended C2: a late capture completion in the Gated
phase appends the photo; an upload error in Preview moves to Gated. -/
theorem c2_witness :
    update String gl0 t0 (mkApp (.PaymentRequired none) [] none [] none)
        (.CaptureStill (.ok img1)) =
      some
        ({ mkApp (.PaymentRequired none) [] none [] none with captured_photos := [img1] }, .none) ∧
      update String gl0 t0 (mkApp .Preview [] none [] none) (.Uploaded (.error "slow network")) =
        some ({ mkApp .Preview [] none [] none with
            state := .PaymentRequired (some uploadErrMsg) },
          .none) :=
  ⟨(c2_late_completions String gl0 t0).1 (mkApp (.PaymentRequired none) [] none [] none) img1
      rfl (fun cur sub h => by cases h),
    (c2_late_completions String gl0 t0).2.2 (mkApp .Preview [] none [] none) "slow network" rfl⟩

/-- C8: in the Notifying (Emailing) phase a fully successful notification
completion moves the session to Gated with the error flag clear; a failed
completion (backend error, or some recipients unreachable) moves it to
Gated with the error flag set; and a notification completion received in
any other phase leaves the session unchanged. -/
theorem c8_notification_completion (H : Type) (gl : H → String) (t : Img) :
    (∀ app : MainApp H,
        app.feed.options = optionsFor app.state →
        app.state = .Emailing →
        update H gl t app (.Emailed (.ok true)) =
          some ({ app with state := .PaymentRequired none }, .none)) ∧
      (∀ app : MainApp H,
        app.feed.options = optionsFor app.state →
        app.state = .Emailing →
        update H gl t app (.Emailed (.ok false)) =
          some ({ app with state := .PaymentRequired (some emailPartialErrMsg) }, .none)) ∧
      (∀ (app : MainApp H) (e : String),
        app.feed.options = optionsFor app.state →
        app.state = .Emailing →
        update H gl t app (.Emailed (.error e)) =
          some ({ app with state := .PaymentRequired (some emailErrMsg) }, .none)) ∧
      (∀ (app : MainApp H) (res : Except String Bool),
        app.feed.options = optionsFor app.state →
        app.state ≠ .Emailing →
        update H gl t app (.Emailed res) = some (app, .none)) := by
  refine ⟨?_, ?_, ?_, ?_⟩
  · intro app hopt hS
    obtain ⟨⟨fr, op⟩, st, cp, pv, sp, sh, em, uh, qr⟩ := app
    simp only at hopt hS
    subst hS
    subst hopt
    rfl
  · intro app hopt hS
    obtain ⟨⟨fr, op⟩, st, cp, pv, sp, sh, em, uh, qr⟩ := app
    simp only at hopt hS
    subst hS
    subst hopt
    rfl
  · intro app e hopt hS
    obtain ⟨⟨fr, op⟩, st, cp, pv, sp, sh, em, uh, qr⟩ := app
    simp only at hopt hS
    subst hS
    subst hopt
    rfl
  · intro app res hopt hne
    obtain ⟨⟨fr, op⟩, st, cp, pv, sp, sh, em, uh, qr⟩ := app
    simp only at hopt hne
    subst hopt
    cases res with
    | ok b =>
      cases st with
      | Emailing => exact absurd rfl hne
      | PaymentRequired err => cases b <;> rfl
      | Preview => cases b <;> rfl
      | CapturePhotosPrepare => cases b <;> rfl
      | CapturePhotos cur sub => cases b <;> rfl
      | RenderedPreview => cases b <;> rfl
      | EmailEntry => cases b <;> rfl
    | error e =>
      cases st with
      | Emailing => exact absurd rfl hne
      | PaymentRequired err => rfl
      | Preview => rfl
      | CapturePhotosPrepare => rfl
      | CapturePhotos cur sub => rfl
      | RenderedPreview => rfl
      | EmailEntry => rfl

/-- Witness for C8: a success in Emailing clears the error flag, a
failure sets it, and a completion in the Gated phase is a no-op. -/
theorem c8_witness :
    update String gl0 t0 (mkApp .Emailing [] none [] none) (.Emailed (.ok true)) =
        some ({ mkApp .Emailing [] none [] none with state := .PaymentRequired none }, .none) ∧
      update String gl0 t0 (mkApp .Emailing [] none [] none) (.Emailed (.error "smtp down")) =
        some
          ({ mkApp .Emailing [] none [] none with
              state := .PaymentRequired (some emailErrMsg) },
            .none) ∧
      update String gl0 t0 (mkApp (.PaymentRequired none) [] none [] none)
          (.Emailed (.ok true)) =
        some (mkApp (.PaymentRequired none) [] none [] none, .none) :=
  ⟨(c8_notification_completion String gl0 t0).1 (mkApp .Emailing [] none [] none) rfl rfl,
    (c8_notification_completion String gl0 t0).2.2.1 (mkApp .Emailing [] none [] none)
      "smtp down" rfl rfl,
    (c8_notification_completion String gl0 t0).2.2.2
      (mkApp (.PaymentRequired none) [] none [] none) (.ok true) rfl (fun h => by cases h)⟩

/-- C7 counterexample: in the email-entry phase with zero outstanding
recipients (the list holds only the empty input entry) but with the
upload still pending (no upload handle yet — a reachable situation, since
email entry is reached on a timer independent of the upload), an explicit
submit does not return the session to Gated: the handler refuses any
submit while the handle is unset, so the session stays in email entry. -/
theorem c7_counterexample :
    (update String gl0 t0 (mkApp .EmailEntry [] none [""] none) .EmailSubmit).map
        (fun o => (isPaymentRequired o.1.state, isEmailEntry o.1.state, o.1.emails)) =
        some (false, true, [""]) ∧
      isEmailEntry (mkApp .EmailEntry [] none [""] none).state = true ∧
      (mkApp .EmailEntry [] none [""] none).upload_handle = none :=
  ⟨rfl, rfl, rfl⟩

/-- C7 amended: in the email-entry phase, provided the upload handle is
present, an explicit submit with zero outstanding recipients (the list is
exactly the one empty input entry) moves the session directly to Gated
with no error and no backend command, never entering the Notifying phase;
a submit with outstanding recipients enters the Notifying (Emailing)
phase and dispatches the notification; when no upload handle exists
(upload pending or failed) any submit is refused with no state change and
no backend command. -/
theorem c7_submit_routing (H : Type) (gl : H → String) (t : Img) :
    (∀ (app : MainApp H) (h : H),
        app.feed.options = optionsFor app.state →
        app.state = .EmailEntry →
        app.upload_handle = some h →
        app.emails = [""] →
        update H gl t app .EmailSubmit =
          some ({ app with emails := [], state := .PaymentRequired none }, .none)) ∧
      (∀ (app : MainApp H) (h : H) (r : String) (rest : List String),
        app.feed.options = optionsFor app.state →
        app.state = .EmailEntry →
        app.upload_handle = some h →
        app.emails = "" :: r :: rest →
        update H gl t app .EmailSubmit =
          some
            ({ app with
                upload_handle := none
                state := .Emailing
                emails := []
                strip_handle := none
                strip := none },
              .sendEmail h (r :: rest))) ∧
      (∀ app : MainApp H,
        app.feed.options = optionsFor app.state →
        app.upload_handle = none →
        update H gl t app .EmailSubmit = some (app, .none)) := by
  refine ⟨?_, ?_, ?_⟩
  · intro app h hopt hS huh hem
    obtain ⟨⟨fr, op⟩, st, cp, pv, sp, sh, em, uh, qr⟩ := app
    simp only at hopt hS huh hem
    subst hS
    subst hopt
    subst huh
    subst hem
    rfl
  · intro app h r rest hopt hS huh hem
    obtain ⟨⟨fr, op⟩, st, cp, pv, sp, sh, em, uh, qr⟩ := app
    simp only at hopt hS huh hem
    subst hS
    subst hopt
    subst huh
    subst hem
    rfl
  · intro app hopt hnone
    obtain ⟨⟨fr, op⟩, st, cp, pv, sp, sh, em, uh, qr⟩ := app
    simp only at hopt hnone
    subst hopt
    subst hnone
    rfl

/-- Witness for the amended C7: zero-recipient submit goes straight to
Gated; a one-recipient submit enters Emailing and dispatches. -/
theorem c7_witness :
    update String gl0 t0 (mkApp .EmailEntry [] none [""] (some "hdl")) .EmailSubmit =
        some
          ({ mkApp .EmailEntry [] none [""] (some "hdl") with
              emails := []
              state := .PaymentRequired none },
            .none) ∧
      update String gl0 t0 (mkApp .EmailEntry [] none ["", "a@b.example"] (some "hdl"))
          .EmailSubmit =
        some
          ({ mkApp .EmailEntry [] none ["", "a@b.example"] (some "hdl") with
              upload_handle := none
              state := .Emailing
              emails := []
              strip_handle := none
              strip := none },
            .sendEmail "hdl" ["a@b.example"]) :=
  ⟨(c7_submit_routing String gl0 t0).1 (mkApp .EmailEntry [] none [""] (some "hdl")) "hdl"
      rfl rfl rfl rfl,
    (c7_submit_routing String gl0 t0).2.1
      (mkApp .EmailEntry [] none ["", "a@b.example"] (some "hdl")) "hdl" "a@b.example" []
      rfl rfl rfl rfl⟩

/-- C10: when a submit with at least one outstanding recipient moves the
session from email entry to the emailing phase, the session artifacts are
cleared synchronously, before any completion can arrive: the upload
handle is taken (None), the recipient list is emptied, and the strip and
its display handle are set to None, while the captured-photo previews,
the captured list and the camera feed are untouched; a second submit on
the resulting state is refused with no command, so a second dispatch of
the same handle is impossible. -/
theorem c10_dispatch_clears_artifacts (H : Type) (gl : H → String) (t : Img)
    (app : MainApp H) (h : H) (r : String) (rest : List String)
    (hopt : app.feed.options = optionsFor app.state)
    (hS : app.state = .EmailEntry)
    (huh : app.upload_handle = some h)
    (hem : app.emails = "" :: r :: rest) :
    update H gl t app .EmailSubmit =
        some
          ({ app with
              upload_handle := none
              state := .Emailing
              emails := []
              strip_handle := none
              strip := none },
            .sendEmail h (r :: rest)) ∧
      ({ app with
          upload_handle := none
          state := .Emailing
          emails := []
          strip_handle := none
          strip := none } : MainApp H).previews =
        app.previews ∧
      ({ app with
          upload_handle := none
          state := .Emailing
          emails := []
          strip_handle := none
          strip := none } : MainApp H).captured_photos =
        app.captured_photos ∧
      ({ app with
          upload_handle := none
          state := .Emailing
          emails := []
          strip_handle := none
          strip := none } : MainApp H).feed =
        app.feed ∧
      update H gl t
          { app with
            upload_handle := none
            state := .Emailing
            emails := []
            strip_handle := none
            strip := none }
          .EmailSubmit =
        some
          ({ app with
              upload_handle := none
              state := .Emailing
              emails := []
              strip_handle := none
              strip := none },
            .none) := by
  obtain ⟨⟨fr, op⟩, st, cp, pv, sp, sh, em, uh, qr⟩ := app
  simp only at hopt hS huh hem
  subst hS
  subst hopt
  subst huh
  subst hem
  exact ⟨rfl, rfl, rfl, rfl, rfl⟩

/-- Witness for C10 at a concrete email-entry session with one recipient
and a present upload handle. -/
theorem c10_witness :
    update String gl0 t0 (mkApp .EmailEntry [img1] (some img1) ["", "x@y.example"] (some "hdl"))
        .EmailSubmit =
      some
        ({ mkApp .EmailEntry [img1] (some img1) ["", "x@y.example"] (some "hdl") with
            upload_handle := none
            state := .Emailing
            emails := []
            strip_handle := none
            strip := none },
          .sendEmail "hdl" ["x@y.example"]) :=
  (c10_dispatch_clears_artifacts String gl0 t0
    (mkApp .EmailEntry [img1] (some img1) ["", "x@y.example"] (some "hdl")) "hdl"
    "x@y.example" [] rfl rfl rfl rfl).1

/-- States reachable by the controller from `MainApp::new`, under a fixed
backend link function and template. -/
inductive Reachable (H : Type) (gl : H → String) (t : Img) : MainApp H → Prop where
  | init (feed : Feed) : Reachable H gl t (initApp H feed)
  | step {a : MainApp H} {msg : MainAppMessage H} {out : MainApp H × Cmd H} :
      Reachable H gl t a → update H gl t a msg = some out → Reachable H gl t out.1

/-- One non-panicking `update` step preserves the session invariant: a
non-empty recipient list in the email-entry phase, and a shot counter
below the photo count during the capture ritual. -/
theorem update_inv_step (H : Type) (gl : H → String) (t : Img)
    (a : MainApp H) (msg : MainAppMessage H) (out : MainApp H × Cmd H)
    (hu : update H gl t a msg = some out)
    (ih1 : a.state = .EmailEntry → a.emails ≠ [])
    (ih2 : ∀ shot sub, a.state = .CapturePhotos shot sub → shot < 4) :
    (out.1.state = .EmailEntry → out.1.emails ≠ []) ∧
      (∀ shot sub, out.1.state = .CapturePhotos shot sub → shot < 4) := by
  obtain ⟨⟨fr, op⟩, st, cp, pv, sp, sh, em, uh, qr⟩ := a
  obtain ⟨o1, o2⟩ := out
  simp only at ih1 ih2
  rw [show update H gl t ⟨⟨fr, op⟩, st, cp, pv, sp, sh, em, uh, qr⟩ msg =
      updateCore H gl t ⟨⟨fr, optionsFor st⟩, st, cp, pv, sp, sh, em, uh, qr⟩ msg from rfl] at hu
  cases msg with
  | Camera cm =>
    cases cm with
    | CaptureFrame =>
      simp only [updateCore, Option.some.injEq, Prod.mk.injEq] at hu
      obtain ⟨h1, -⟩ := hu
      subst h1
      exact ⟨ih1, ih2⟩
    | NewFrame f =>
      simp only [updateCore, Option.some.injEq, Prod.mk.injEq] at hu
      obtain ⟨h1, -⟩ := hu
      subst h1
      exact ⟨ih1, ih2⟩
  | Tick tl1 tl2 =>
    cases st with
    | PaymentRequired err =>
      simp only [updateCore, Option.some.injEq, Prod.mk.injEq] at hu
      obtain ⟨h1, -⟩ := hu
      subst h1
      exact ⟨ih1, ih2⟩
    | Preview =>
      simp only [updateCore, Option.some.injEq, Prod.mk.injEq] at hu
      obtain ⟨h1, -⟩ := hu
      subst h1
      exact ⟨ih1, ih2⟩
    | EmailEntry =>
      simp only [updateCore, Option.some.injEq, Prod.mk.injEq] at hu
      obtain ⟨h1, -⟩ := hu
      subst h1
      exact ⟨ih1, ih2⟩
    | Emailing =>
      simp only [updateCore, Option.some.injEq, Prod.mk.injEq] at hu
      obtain ⟨h1, -⟩ := hu
      subst h1
      exact ⟨ih1, ih2⟩
    | CapturePhotosPrepare =>
      simp only [updateCore] at hu
      split at hu
      · simp only [Option.some.injEq, Prod.mk.injEq] at hu
        obtain ⟨h1, -⟩ := hu
        subst h1
        refine ⟨fun h => MainAppState.noConfusion h, fun shot sub h => ?_⟩
        injection h with h1 h2
        omega
      · simp only [Option.some.injEq, Prod.mk.injEq] at hu
        obtain ⟨h1, -⟩ := hu
        subst h1
        exact ⟨ih1, ih2⟩
    | CapturePhotos shot0 sub0 =>
      have hb : shot0 < 4 := ih2 shot0 sub0 rfl
      cases sub0 with
      | Countdown c =>
        simp only [updateCore] at hu
        split at hu
        · split at hu
          · exact Option.noConfusion hu
          · split at hu
            · simp only [Option.some.injEq, Prod.mk.injEq] at hu
              obtain ⟨h1, -⟩ := hu
              subst h1
              refine ⟨fun h => MainAppState.noConfusion h, fun shot sub h => ?_⟩
              injection h with h1 h2
              omega
            · simp only [Option.some.injEq, Prod.mk.injEq] at hu
              obtain ⟨h1, -⟩ := hu
              subst h1
              refine ⟨fun h => MainAppState.noConfusion h, fun shot sub h => ?_⟩
              injection h with h1 h2
              omega
        · simp only [Option.some.injEq, Prod.mk.injEq] at hu
          obtain ⟨h1, -⟩ := hu
          subst h1
          exact ⟨ih1, ih2⟩
      | Capture =>
        simp only [updateCore] at hu
        split at hu
        · split at hu
          · exact Option.noConfusion hu
          · simp only [Option.some.injEq, Prod.mk.injEq] at hu
            obtain ⟨h1, -⟩ := hu
            subst h1
            refine ⟨fun h => MainAppState.noConfusion h, fun shot sub h => ?_⟩
            injection h with h1 h2
            omega
        · simp only [Option.some.injEq, Prod.mk.injEq] at hu
          obtain ⟨h1, -⟩ := hu
          subst h1
          exact ⟨ih1, ih2⟩
      | Preview i =>
        simp only [updateCore] at hu
        split at hu
        · split at hu
          · rename_i hlt
            simp only [Option.some.injEq, Prod.mk.injEq] at hu
            obtain ⟨h1, -⟩ := hu
            subst h1
            refine ⟨fun h => MainAppState.noConfusion h, fun shot sub h => ?_⟩
            injection h with h1 h2
            omega
          · split at hu
            · exact Option.noConfusion hu
            · simp only [Option.some.injEq, Prod.mk.injEq] at hu
              obtain ⟨h1, -⟩ := hu
              subst h1
              exact ⟨fun h => MainAppState.noConfusion h,
                fun shot sub h => MainAppState.noConfusion h⟩
        · simp only [Option.some.injEq, Prod.mk.injEq] at hu
          obtain ⟨h1, -⟩ := hu
          subst h1
          exact ⟨ih1, ih2⟩
    | RenderedPreview =>
      simp only [updateCore] at hu
      split at hu
      · simp only [Option.some.injEq, Prod.mk.injEq] at hu
        obtain ⟨h1, -⟩ := hu
        subst h1
        exact ⟨fun _ => List.cons_ne_nil "" [], fun shot sub h => MainAppState.noConfusion h⟩
      · simp only [Option.some.injEq, Prod.mk.injEq] at hu
        obtain ⟨h1, -⟩ := hu
        subst h1
        exact ⟨ih1, ih2⟩
  | KeyReleased k =>
    cases st with
    | PaymentRequired err =>
      cases k with
      | Space =>
        simp only [updateCore, Option.some.injEq, Prod.mk.injEq] at hu
        obtain ⟨h1, -⟩ := hu
        subst h1
        exact ⟨fun h => MainAppState.noConfusion h, fun shot sub h => MainAppState.noConfusion h⟩
      | Up =>
        simp only [updateCore, Option.some.injEq, Prod.mk.injEq] at hu
        obtain ⟨h1, -⟩ := hu
        subst h1
        exact ⟨ih1, ih2⟩
      | Down =>
        simp only [updateCore, Option.some.injEq, Prod.mk.injEq] at hu
        obtain ⟨h1, -⟩ := hu
        subst h1
        exact ⟨ih1, ih2⟩
      | Escape =>
        simp only [updateCore, Option.some.injEq, Prod.mk.injEq] at hu
        obtain ⟨h1, -⟩ := hu
        subst h1
        exact ⟨ih1, ih2⟩
    | Preview =>
      simp only [updateCore, Option.some.injEq, Prod.mk.injEq] at hu
      obtain ⟨h1, -⟩ := hu
      subst h1
      exact ⟨fun h => MainAppState.noConfusion h, fun shot sub h => MainAppState.noConfusion h⟩
    | CapturePhotosPrepare =>
      simp only [updateCore, Option.some.injEq, Prod.mk.injEq] at hu
      obtain ⟨h1, -⟩ := hu
      subst h1
      exact ⟨ih1, ih2⟩
    | CapturePhotos shot0 sub0 =>
      simp only [updateCore, Option.some.injEq, Prod.mk.injEq] at hu
      obtain ⟨h1, -⟩ := hu
      subst h1
      exact ⟨ih1, ih2⟩
    | RenderedPreview =>
      simp only [updateCore, Option.some.injEq, Prod.mk.injEq] at hu
      obtain ⟨h1, -⟩ := hu
      subst h1
      exact ⟨ih1, ih2⟩
    | EmailEntry =>
      simp only [updateCore, Option.some.injEq, Prod.mk.injEq] at hu
      obtain ⟨h1, -⟩ := hu
      subst h1
      exact ⟨ih1, ih2⟩
    | Emailing =>
      simp only [updateCore, Option.some.injEq, Prod.mk.injEq] at hu
      obtain ⟨h1, -⟩ := hu
      subst h1
      exact ⟨ih1, ih2⟩
  | CaptureStill res =>
    cases res with
    | error e => exact Option.noConfusion hu
    | ok i =>
      cases st with
      | PaymentRequired err =>
        simp only [updateCore, Option.some.injEq, Prod.mk.injEq] at hu
        obtain ⟨h1, -⟩ := hu
        subst h1
        exact ⟨ih1, ih2⟩
      | Preview =>
        simp only [updateCore, Option.some.injEq, Prod.mk.injEq] at hu
        obtain ⟨h1, -⟩ := hu
        subst h1
        exact ⟨ih1, ih2⟩
      | CapturePhotosPrepare =>
        simp only [updateCore, Option.some.injEq, Prod.mk.injEq] at hu
        obtain ⟨h1, -⟩ := hu
        subst h1
        exact ⟨ih1, ih2⟩
      | CapturePhotos shot0 sub0 =>
        simp only [updateCore, Option.some.injEq, Prod.mk.injEq] at hu
        obtain ⟨h1, -⟩ := hu
        subst h1
        refine ⟨fun h => MainAppState.noConfusion h, fun shot sub h => ?_⟩
        injection h with h1 h2
        have := ih2 shot0 sub0 rfl
        omega
      | RenderedPreview =>
        simp only [updateCore, Option.some.injEq, Prod.mk.injEq] at hu
        obtain ⟨h1, -⟩ := hu
        subst h1
        exact ⟨ih1, ih2⟩
      | EmailEntry =>
        simp only [updateCore, Option.some.injEq, Prod.mk.injEq] at hu
        obtain ⟨h1, -⟩ := hu
        subst h1
        exact ⟨fun _ => ih1 rfl, fun shot sub h => MainAppState.noConfusion h⟩
      | Emailing =>
        simp only [updateCore, Option.some.injEq, Prod.mk.injEq] at hu
        obtain ⟨h1, -⟩ := hu
        subst h1
        exact ⟨ih1, ih2⟩
  | Uploaded res =>
    cases res with
    | ok h =>
      simp only [updateCore, Option.some.injEq, Prod.mk.injEq] at hu
      obtain ⟨h1, -⟩ := hu
      subst h1
      exact ⟨ih1, ih2⟩
    | error e =>
      simp only [updateCore, Option.some.injEq, Prod.mk.injEq] at hu
      obtain ⟨h1, -⟩ := hu
      subst h1
      exact ⟨fun h => MainAppState.noConfusion h, fun shot sub h => MainAppState.noConfusion h⟩
  | Emailed res =>
    cases st with
    | Emailing =>
      cases res with
      | ok b =>
        cases b with
        | true =>
          simp only [updateCore, Option.some.injEq, Prod.mk.injEq] at hu
          obtain ⟨h1, -⟩ := hu
          subst h1
          exact ⟨fun h => MainAppState.noConfusion h,
            fun shot sub h => MainAppState.noConfusion h⟩
        | false =>
          simp only [updateCore, Option.some.injEq, Prod.mk.injEq] at hu
          obtain ⟨h1, -⟩ := hu
          subst h1
          exact ⟨fun h => MainAppState.noConfusion h,
            fun shot sub h => MainAppState.noConfusion h⟩
      | error e =>
        simp only [updateCore, Option.some.injEq, Prod.mk.injEq] at hu
        obtain ⟨h1, -⟩ := hu
        subst h1
        exact ⟨fun h => MainAppState.noConfusion h, fun shot sub h => MainAppState.noConfusion h⟩
    | PaymentRequired err =>
      simp only [updateCore, Option.some.injEq, Prod.mk.injEq] at hu
      obtain ⟨h1, -⟩ := hu
      subst h1
      exact ⟨ih1, ih2⟩
    | Preview =>
      simp only [updateCore, Option.some.injEq, Prod.mk.injEq] at hu
      obtain ⟨h1, -⟩ := hu
      subst h1
      exact ⟨ih1, ih2⟩
    | CapturePhotosPrepare =>
      simp only [updateCore, Option.some.injEq, Prod.mk.injEq] at hu
      obtain ⟨h1, -⟩ := hu
      subst h1
      exact ⟨ih1, ih2⟩
    | CapturePhotos shot0 sub0 =>
      simp only [updateCore, Option.some.injEq, Prod.mk.injEq] at hu
      obtain ⟨h1, -⟩ := hu
      subst h1
      exact ⟨ih1, ih2⟩
    | RenderedPreview =>
      simp only [updateCore, Option.some.injEq, Prod.mk.injEq] at hu
      obtain ⟨h1, -⟩ := hu
      subst h1
      exact ⟨ih1, ih2⟩
    | EmailEntry =>
      simp only [updateCore, Option.some.injEq, Prod.mk.injEq] at hu
      obtain ⟨h1, -⟩ := hu
      subst h1
      exact ⟨fun _ => ih1 rfl, fun shot sub h => MainAppState.noConfusion h⟩
  | OtherKeyPress =>
    simp only [updateCore, Option.some.injEq, Prod.mk.injEq] at hu
    obtain ⟨h1, -⟩ := hu
    subst h1
    exact ⟨ih1, ih2⟩
  | EmailInput s =>
    simp only [updateCore] at hu
    split at hu
    · simp only [Option.some.injEq, Prod.mk.injEq] at hu
      obtain ⟨h1, -⟩ := hu
      subst h1
      exact ⟨fun _ => List.cons_ne_nil s [], ih2⟩
    · rename_i hne
      simp only [Option.some.injEq, Prod.mk.injEq] at hu
      obtain ⟨h1, -⟩ := hu
      subst h1
      refine ⟨fun _ => ?_, ih2⟩
      cases em with
      | nil => simp at hne
      | cons a l => exact List.cons_ne_nil s l
  | EmailSubmit =>
    simp only [updateCore] at hu
    split at hu
    · simp only [Option.some.injEq, Prod.mk.injEq] at hu
      obtain ⟨h1, -⟩ := hu
      subst h1
      exact ⟨ih1, ih2⟩
    · split at hu
      · exact Option.noConfusion hu
      · split at hu
        · simp only [Option.some.injEq, Prod.mk.injEq] at hu
          obtain ⟨h1, -⟩ := hu
          subst h1
          exact ⟨fun _ => List.cons_ne_nil "" _, ih2⟩
        · split at hu
          · simp only [Option.some.injEq, Prod.mk.injEq] at hu
            obtain ⟨h1, -⟩ := hu
            subst h1
            exact ⟨fun h => MainAppState.noConfusion h,
              fun shot sub h => MainAppState.noConfusion h⟩
          · split at hu
            · simp only [Option.some.injEq, Prod.mk.injEq] at hu
              obtain ⟨h1, -⟩ := hu
              subst h1
              exact ⟨fun h => MainAppState.noConfusion h,
                fun shot sub h => MainAppState.noConfusion h⟩
            · simp only [Option.some.injEq, Prod.mk.injEq] at hu
              obtain ⟨h1, -⟩ := hu
              subst h1
              exact ⟨fun h => MainAppState.noConfusion h,
                fun shot sub h => MainAppState.noConfusion h⟩

/-- Every reachable controller state satisfies the session invariant. -/
theorem reachable_inv (H : Type) (gl : H → String) (t : Img) (a : MainApp H)
    (h : Reachable H gl t a) :
    (a.state = .EmailEntry → a.emails ≠ []) ∧
      (∀ shot sub, a.state = .CapturePhotos shot sub → shot < 4) := by
  induction h with
  | init feed =>
    exact ⟨fun h => MainAppState.noConfusion h, fun shot sub h => MainAppState.noConfusion h⟩
  | step hr hu ih => exact update_inv_step _ _ _ _ _ _ hu ih.1 ih.2

/-- With a non-empty recipient list, the submit handler cannot panic on
its unchecked first-entry access. -/
theorem emailSubmit_no_panic (H : Type) (gl : H → String) (t : Img)
    (a : MainApp H) (hne : a.emails ≠ []) :
    (update H gl t a .EmailSubmit).isSome = true := by
  obtain ⟨⟨fr, op⟩, st, cp, pv, sp, sh, em, uh, qr⟩ := a
  simp only at hne
  rw [show update H gl t ⟨⟨fr, op⟩, st, cp, pv, sp, sh, em, uh, qr⟩ .EmailSubmit =
      updateCore H gl t ⟨⟨fr, optionsFor st⟩, st, cp, pv, sp, sh, em, uh, qr⟩ .EmailSubmit
    from rfl]
  simp only [updateCore]
  split
  · rfl
  · cases em with
    | nil => exact absurd rfl hne
    | cons e0 rest =>
      split
      · rename_i x heq
        exact absurd heq (by simp)
      · split
        · rfl
        · split
          · rfl
          · split
            · rfl
            · rfl

/-- Run a list of messages through `update`, stopping at a panic. -/
def runMsgs (H : Type) (gl : H → String) (t : Img) :
    MainApp H → List (MainAppMessage H) → Option (MainApp H)
  | a, [] => some a
  | a, m :: ms =>
    match update H gl t a m with
    | none => none
    | some out => runMsgs H gl t out.1 ms

theorem runMsgs_reachable (H : Type) (gl : H → String) (t : Img)
    (msgs : List (MainAppMessage H)) (a b : MainApp H)
    (ha : Reachable H gl t a) (hr : runMsgs H gl t a msgs = some b) :
    Reachable H gl t b := by
  induction msgs generalizing a with
  | nil =>
    simp only [runMsgs, Option.some.injEq] at hr
    exact hr ▸ ha
  | cons m ms ih =>
    simp only [runMsgs] at hr
    split at hr
    · exact Option.noConfusion hr
    · rename_i out heq
      exact ih out.1 (Reachable.step ha heq) hr

theorem option_eq_some_getD {α : Type} (o : Option α) (d : α) (h : o.isSome = true) :
    o = some (o.getD d) := by
  cases o with
  | none => exact absurd h (by simp)
  | some x => rfl

/-- The feed of a fresh session. -/
def feed0 : Feed := ⟨none, optionsFor (.PaymentRequired none)⟩

/-- The six messages driving one shot of the capture ritual: three
countdown completions, the capture completion, the flash completion and
the shot-preview completion. -/
def shotMsgs : List (MainAppMessage String) :=
  [.Tick true true, .Tick true true, .Tick true true, .CaptureStill (.ok img1),
    .Tick true true, .Tick true true]

/-- A full happy-path run from the Gated phase to email entry. -/
def msgs0 : List (MainAppMessage String) :=
  [.KeyReleased .Space, .KeyReleased .Space, .Tick true true] ++
    shotMsgs ++ shotMsgs ++ shotMsgs ++ shotMsgs ++ [.Tick true true]

/-- The concrete email-entry session reached by the happy-path run. -/
def emailEntryApp : MainApp String :=
  (runMsgs String gl0 t0 (initApp String feed0) msgs0).getD (initApp String feed0)

theorem emailEntryApp_run :
    runMsgs String gl0 t0 (initApp String feed0) msgs0 = some emailEntryApp :=
  option_eq_some_getD (runMsgs String gl0 t0 (initApp String feed0) msgs0)
    (initApp String feed0) rfl

theorem emailEntryApp_reachable : Reachable String gl0 t0 emailEntryApp :=
  runMsgs_reachable String gl0 t0 msgs0 (initApp String feed0) emailEntryApp
    (Reachable.init feed0) emailEntryApp_run

/-- C9: in every reachable email-entry state the recipient list is
non-empty (it is initialised with one empty entry on entry to the phase
and never emptied while the phase is kept), so the unchecked first-entry
accesses of the submit handler and the view are in bounds and the submit
handler cannot panic. -/
theorem c9_email_entry_nonempty (H : Type) (gl : H → String) (t : Img)
    (app : MainApp H) (h : Reachable H gl t app) (hS : app.state = .EmailEntry) :
    app.emails ≠ [] ∧ (update H gl t app .EmailSubmit).isSome = true := by
  have hne := (reachable_inv H gl t app h).1 hS
  exact ⟨hne, emailSubmit_no_panic H gl t app hne⟩

/-- Witness for C9: the concrete reachable email-entry session. -/
theorem c9_witness :
    emailEntryApp.emails ≠ [] ∧
      (update String gl0 t0 emailEntryApp .EmailSubmit).isSome = true :=
  c9_email_entry_nonempty String gl0 t0 emailEntryApp emailEntryApp_reachable rfl

/-- Success of `render_take` requires exactly four photographs. -/
theorem render_take_some_length (t : Img) (ps : List Img) (s : Img)
    (h : render_take t ps = some s) : ps.length = 4 := by
  by_contra hne
  unfold render_take at h
  rw [if_neg hne] at h
  exact Option.noConfusion h

/-- C1: the four-shot capture sequencing.  The countdown is armed at 3 on
entry to the first shot and re-armed at 3 for each following shot; a tick
completing the countdown at count 1 (reaching 0) enters Flash and issues
the still-capture request; `captureStill` is issued in no other
situation; and the Composing step (strip build plus upload start,
`RenderedPreview`) is entered only from the 4th shot's completed preview,
with exactly 4 photographs accumulated, all of which are composed and
uploaded; in every reachable state the shot counter stays below 4. -/
theorem c1_capture_sequencing (H : Type) (gl : H → String) (t : Img) :
    (∀ (app : MainApp H) (tl2 : Bool),
        app.feed.options = optionsFor app.state →
        app.state = .CapturePhotosPrepare →
        update H gl t app (.Tick true tl2) =
          some ({ app with state := .CapturePhotos 0 (.Countdown 3) }, .none)) ∧
      (∀ (app : MainApp H) (shot c : Nat) (tl2 : Bool),
        app.feed.options = optionsFor app.state →
        app.state = .CapturePhotos shot (.Countdown c) →
        1 < c →
        update H gl t app (.Tick true tl2) =
          some ({ app with state := .CapturePhotos shot (.Countdown (c - 1)) }, .none)) ∧
      (∀ (app : MainApp H) (shot : Nat) (tl2 : Bool),
        app.feed.options = optionsFor app.state →
        app.state = .CapturePhotos shot (.Countdown 1) →
        update H gl t app (.Tick true tl2) =
          some ({ app with state := .CapturePhotos shot .Capture }, .captureStill)) ∧
      (∀ (app : MainApp H) (shot : Nat) (i : Img) (tl2 : Bool),
        app.feed.options = optionsFor app.state →
        app.state = .CapturePhotos shot (.Preview i) →
        shot + 1 < 4 →
        update H gl t app (.Tick true tl2) =
          some ({ app with state := .CapturePhotos (shot + 1) (.Countdown 3) }, .none)) ∧
      (∀ (app : MainApp H) (msg : MainAppMessage H) (out : MainApp H × Cmd H),
        update H gl t app msg = some out →
        out.2 = Cmd.captureStill →
        ∃ shot tl2, msg = .Tick true tl2 ∧ app.state = .CapturePhotos shot (.Countdown 1)) ∧
      (∀ (app : MainApp H) (msg : MainAppMessage H) (out : MainApp H × Cmd H),
        update H gl t app msg = some out →
        out.1.state = .RenderedPreview →
        app.state ≠ .RenderedPreview →
        (∀ shot sub, app.state = .CapturePhotos shot sub → shot < 4) →
        ∃ i tl2, msg = .Tick true tl2 ∧ app.state = .CapturePhotos 3 (.Preview i) ∧
          app.captured_photos.length = 4 ∧
          ∃ strip, render_take t app.captured_photos = some strip ∧
            out.2 = .upload strip app.captured_photos ∧
            out.1.previews = app.captured_photos ∧ out.1.captured_photos = []) ∧
      (∀ app : MainApp H, Reachable H gl t app →
        ∀ shot sub, app.state = .CapturePhotos shot sub → shot < 4) := by
  refine ⟨?_, ?_, ?_, ?_, ?_, ?_, ?_⟩
  · intro app tl2 hopt hS
    obtain ⟨⟨fr, op⟩, st, cp, pv, sp, sh, em, uh, qr⟩ := app
    simp only at hopt hS
    subst hS
    subst hopt
    rfl
  · intro app shot c tl2 hopt hS hc
    obtain ⟨⟨fr, op⟩, st, cp, pv, sp, sh, em, uh, qr⟩ := app
    simp only at hopt hS
    subst hS
    subst hopt
    obtain ⟨c2, rfl⟩ : ∃ c2, c = c2 + 2 := ⟨c - 2, by omega⟩
    rfl
  · intro app shot tl2 hopt hS
    obtain ⟨⟨fr, op⟩, st, cp, pv, sp, sh, em, uh, qr⟩ := app
    simp only at hopt hS
    subst hS
    subst hopt
    rfl
  · intro app shot i tl2 hopt hS hlt
    obtain ⟨⟨fr, op⟩, st, cp, pv, sp, sh, em, uh, qr⟩ := app
    simp only at hopt hS
    subst hS
    subst hopt
    have hc : shot = 0 ∨ shot = 1 ∨ shot = 2 := by omega
    rcases hc with rfl | rfl | rfl
    · rfl
    · rfl
    · rfl
  · intro app msg out hu hout
    obtain ⟨⟨fr, op⟩, st, cp, pv, sp, sh, em, uh, qr⟩ := app
    obtain ⟨o1, o2⟩ := out
    simp only at hout
    rw [show update H gl t ⟨⟨fr, op⟩, st, cp, pv, sp, sh, em, uh, qr⟩ msg =
        updateCore H gl t ⟨⟨fr, optionsFor st⟩, st, cp, pv, sp, sh, em, uh, qr⟩ msg
      from rfl] at hu
    cases msg with
    | Camera cm =>
      cases cm with
      | CaptureFrame =>
        simp only [updateCore, Option.some.injEq, Prod.mk.injEq] at hu
        obtain ⟨-, h2⟩ := hu
        rw [← h2] at hout
        exact Cmd.noConfusion hout
      | NewFrame f =>
        simp only [updateCore, Option.some.injEq, Prod.mk.injEq] at hu
        obtain ⟨-, h2⟩ := hu
        rw [← h2] at hout
        exact Cmd.noConfusion hout
    | Tick tl1 tl2 =>
      cases st with
      | PaymentRequired err =>
        simp only [updateCore, Option.some.injEq, Prod.mk.injEq] at hu
        obtain ⟨-, h2⟩ := hu
        rw [← h2] at hout
        exact Cmd.noConfusion hout
      | Preview =>
        simp only [updateCore, Option.some.injEq, Prod.mk.injEq] at hu
        obtain ⟨-, h2⟩ := hu
        rw [← h2] at hout
        exact Cmd.noConfusion hout
      | EmailEntry =>
        simp only [updateCore, Option.some.injEq, Prod.mk.injEq] at hu
        obtain ⟨-, h2⟩ := hu
        rw [← h2] at hout
        exact Cmd.noConfusion hout
      | Emailing =>
        simp only [updateCore, Option.some.injEq, Prod.mk.injEq] at hu
        obtain ⟨-, h2⟩ := hu
        rw [← h2] at hout
        exact Cmd.noConfusion hout
      | CapturePhotosPrepare =>
        simp only [updateCore] at hu
        split at hu <;>
          (simp only [Option.some.injEq, Prod.mk.injEq] at hu
           obtain ⟨-, h2⟩ := hu
           rw [← h2] at hout
           exact Cmd.noConfusion hout)
      | RenderedPreview =>
        simp only [updateCore] at hu
        split at hu <;>
          (simp only [Option.some.injEq, Prod.mk.injEq] at hu
           obtain ⟨-, h2⟩ := hu
           rw [← h2] at hout
           exact Cmd.noConfusion hout)
      | CapturePhotos shot0 sub0 =>
        cases sub0 with
        | Countdown c =>
          simp only [updateCore] at hu
          split at hu
          · rename_i htl
            split at hu
            · exact Option.noConfusion hu
            · rename_i hc0
              split at hu
              · rename_i hc1
                subst htl
                have hc : c = 1 := by omega
                subst hc
                exact ⟨shot0, tl2, rfl, rfl⟩
              · simp only [Option.some.injEq, Prod.mk.injEq] at hu
                obtain ⟨-, h2⟩ := hu
                rw [← h2] at hout
                exact Cmd.noConfusion hout
          · simp only [Option.some.injEq, Prod.mk.injEq] at hu
            obtain ⟨-, h2⟩ := hu
            rw [← h2] at hout
            exact Cmd.noConfusion hout
        | Capture =>
          simp only [updateCore] at hu
          split at hu
          · split at hu
            · exact Option.noConfusion hu
            · simp only [Option.some.injEq, Prod.mk.injEq] at hu
              obtain ⟨-, h2⟩ := hu
              rw [← h2] at hout
              exact Cmd.noConfusion hout
          · simp only [Option.some.injEq, Prod.mk.injEq] at hu
            obtain ⟨-, h2⟩ := hu
            rw [← h2] at hout
            exact Cmd.noConfusion hout
        | Preview i =>
          simp only [updateCore] at hu
          split at hu
          · split at hu
            · simp only [Option.some.injEq, Prod.mk.injEq] at hu
              obtain ⟨-, h2⟩ := hu
              rw [← h2] at hout
              exact Cmd.noConfusion hout
            · split at hu
              · exact Option.noConfusion hu
              · simp only [Option.some.injEq, Prod.mk.injEq] at hu
                obtain ⟨-, h2⟩ := hu
                rw [← h2] at hout
                exact Cmd.noConfusion hout
          · simp only [Option.some.injEq, Prod.mk.injEq] at hu
            obtain ⟨-, h2⟩ := hu
            rw [← h2] at hout
            exact Cmd.noConfusion hout
    | KeyReleased k =>
      cases st with
      | PaymentRequired err =>
        cases k <;>
          (simp only [updateCore, Option.some.injEq, Prod.mk.injEq] at hu
           obtain ⟨-, h2⟩ := hu
           rw [← h2] at hout
           exact Cmd.noConfusion hout)
      | Preview =>
        simp only [updateCore, Option.some.injEq, Prod.mk.injEq] at hu
        obtain ⟨-, h2⟩ := hu
        rw [← h2] at hout
        exact Cmd.noConfusion hout
      | CapturePhotosPrepare =>
        simp only [updateCore, Option.some.injEq, Prod.mk.injEq] at hu
        obtain ⟨-, h2⟩ := hu
        rw [← h2] at hout
        exact Cmd.noConfusion hout
      | CapturePhotos shot0 sub0 =>
        simp only [updateCore, Option.some.injEq, Prod.mk.injEq] at hu
        obtain ⟨-, h2⟩ := hu
        rw [← h2] at hout
        exact Cmd.noConfusion hout
      | RenderedPreview =>
        simp only [updateCore, Option.some.injEq, Prod.mk.injEq] at hu
        obtain ⟨-, h2⟩ := hu
        rw [← h2] at hout
        exact Cmd.noConfusion hout
      | EmailEntry =>
        simp only [updateCore, Option.some.injEq, Prod.mk.injEq] at hu
        obtain ⟨-, h2⟩ := hu
        rw [← h2] at hout
        exact Cmd.noConfusion hout
      | Emailing =>
        simp only [updateCore, Option.some.injEq, Prod.mk.injEq] at hu
        obtain ⟨-, h2⟩ := hu
        rw [← h2] at hout
        exact Cmd.noConfusion hout
    | CaptureStill res =>
      cases res with
      | error e => exact Option.noConfusion hu
      | ok i =>
        cases st <;>
          (simp only [updateCore, Option.some.injEq, Prod.mk.injEq] at hu
           obtain ⟨-, h2⟩ := hu
           rw [← h2] at hout
           exact Cmd.noConfusion hout)
    | Uploaded res =>
      cases res <;>
        (simp only [updateCore, Option.some.injEq, Prod.mk.injEq] at hu
         obtain ⟨-, h2⟩ := hu
         rw [← h2] at hout
         exact Cmd.noConfusion hout)
    | Emailed res =>
      cases st with
      | Emailing =>
        cases res with
        | ok b =>
          cases b <;>
            (simp only [updateCore, Option.some.injEq, Prod.mk.injEq] at hu
             obtain ⟨-, h2⟩ := hu
             rw [← h2] at hout
             exact Cmd.noConfusion hout)
        | error e =>
          simp only [updateCore, Option.some.injEq, Prod.mk.injEq] at hu
          obtain ⟨-, h2⟩ := hu
          rw [← h2] at hout
          exact Cmd.noConfusion hout
      | PaymentRequired err =>
        simp only [updateCore, Option.some.injEq, Prod.mk.injEq] at hu
        obtain ⟨-, h2⟩ := hu
        rw [← h2] at hout
        exact Cmd.noConfusion hout
      | Preview =>
        simp only [updateCore, Option.some.injEq, Prod.mk.injEq] at hu
        obtain ⟨-, h2⟩ := hu
        rw [← h2] at hout
        exact Cmd.noConfusion hout
      | CapturePhotosPrepare =>
        simp only [updateCore, Option.some.injEq, Prod.mk.injEq] at hu
        obtain ⟨-, h2⟩ := hu
        rw [← h2] at hout
        exact Cmd.noConfusion hout
      | CapturePhotos shot0 sub0 =>
        simp only [updateCore, Option.some.injEq, Prod.mk.injEq] at hu
        obtain ⟨-, h2⟩ := hu
        rw [← h2] at hout
        exact Cmd.noConfusion hout
      | RenderedPreview =>
        simp only [updateCore, Option.some.injEq, Prod.mk.injEq] at hu
        obtain ⟨-, h2⟩ := hu
        rw [← h2] at hout
        exact Cmd.noConfusion hout
      | EmailEntry =>
        simp only [updateCore, Option.some.injEq, Prod.mk.injEq] at hu
        obtain ⟨-, h2⟩ := hu
        rw [← h2] at hout
        exact Cmd.noConfusion hout
    | OtherKeyPress =>
      simp only [updateCore, Option.some.injEq, Prod.mk.injEq] at hu
      obtain ⟨-, h2⟩ := hu
      rw [← h2] at hout
      exact Cmd.noConfusion hout
    | EmailInput s =>
      simp only [updateCore] at hu
      split at hu <;>
        (simp only [Option.some.injEq, Prod.mk.injEq] at hu
         obtain ⟨-, h2⟩ := hu
         rw [← h2] at hout
         exact Cmd.noConfusion hout)
    | EmailSubmit =>
      simp only [updateCore] at hu
      split at hu
      · simp only [Option.some.injEq, Prod.mk.injEq] at hu
        obtain ⟨-, h2⟩ := hu
        rw [← h2] at hout
        exact Cmd.noConfusion hout
      · split at hu
        · exact Option.noConfusion hu
        · split at hu
          · simp only [Option.some.injEq, Prod.mk.injEq] at hu
            obtain ⟨-, h2⟩ := hu
            rw [← h2] at hout
            exact Cmd.noConfusion hout
          · split at hu
            · simp only [Option.some.injEq, Prod.mk.injEq] at hu
              obtain ⟨-, h2⟩ := hu
              rw [← h2] at hout
              exact Cmd.noConfusion hout
            · split at hu <;>
                (simp only [Option.some.injEq, Prod.mk.injEq] at hu
                 obtain ⟨-, h2⟩ := hu
                 rw [← h2] at hout
                 exact Cmd.noConfusion hout)
  · intro app msg out hu hst hne h4
    obtain ⟨⟨fr, op⟩, st, cp, pv, sp, sh, em, uh, qr⟩ := app
    obtain ⟨o1, o2⟩ := out
    simp only at hst hne h4
    rw [show update H gl t ⟨⟨fr, op⟩, st, cp, pv, sp, sh, em, uh, qr⟩ msg =
        updateCore H gl t ⟨⟨fr, optionsFor st⟩, st, cp, pv, sp, sh, em, uh, qr⟩ msg
      from rfl] at hu
    cases st with
    | RenderedPreview => exact absurd rfl hne
    | PaymentRequired err =>
      cases msg with
      | Camera cm =>
        cases cm <;>
          (simp only [updateCore, Option.some.injEq, Prod.mk.injEq] at hu
           obtain ⟨h1, -⟩ := hu
           subst h1
           exact MainAppState.noConfusion hst)
      | Tick tl1 tl2 =>
        simp only [updateCore, Option.some.injEq, Prod.mk.injEq] at hu
        obtain ⟨h1, -⟩ := hu
        subst h1
        exact MainAppState.noConfusion hst
      | KeyReleased k =>
        cases k <;>
          (simp only [updateCore, Option.some.injEq, Prod.mk.injEq] at hu
           obtain ⟨h1, -⟩ := hu
           subst h1
           exact MainAppState.noConfusion hst)
      | CaptureStill res =>
        cases res with
        | error e => exact Option.noConfusion hu
        | ok i =>
          simp only [updateCore, Option.some.injEq, Prod.mk.injEq] at hu
          obtain ⟨h1, -⟩ := hu
          subst h1
          exact MainAppState.noConfusion hst
      | Uploaded res =>
        cases res <;>
          (simp only [updateCore, Option.some.injEq, Prod.mk.injEq] at hu
           obtain ⟨h1, -⟩ := hu
           subst h1
           exact MainAppState.noConfusion hst)
      | Emailed res =>
        simp only [updateCore, Option.some.injEq, Prod.mk.injEq] at hu
        obtain ⟨h1, -⟩ := hu
        subst h1
        exact MainAppState.noConfusion hst
      | OtherKeyPress =>
        simp only [updateCore, Option.some.injEq, Prod.mk.injEq] at hu
        obtain ⟨h1, -⟩ := hu
        subst h1
        exact MainAppState.noConfusion hst
      | EmailInput s =>
        simp only [updateCore] at hu
        split at hu <;>
          (simp only [Option.some.injEq, Prod.mk.injEq] at hu
           obtain ⟨h1, -⟩ := hu
           subst h1
           exact MainAppState.noConfusion hst)
      | EmailSubmit =>
        simp only [updateCore] at hu
        split at hu
        · simp only [Option.some.injEq, Prod.mk.injEq] at hu
          obtain ⟨h1, -⟩ := hu
          subst h1
          exact MainAppState.noConfusion hst
        · split at hu
          · exact Option.noConfusion hu
          · split at hu
            · simp only [Option.some.injEq, Prod.mk.injEq] at hu
              obtain ⟨h1, -⟩ := hu
              subst h1
              exact MainAppState.noConfusion hst
            · split at hu
              · simp only [Option.some.injEq, Prod.mk.injEq] at hu
                obtain ⟨h1, -⟩ := hu
                subst h1
                exact MainAppState.noConfusion hst
              · split at hu <;>
                  (simp only [Option.some.injEq, Prod.mk.injEq] at hu
                   obtain ⟨h1, -⟩ := hu
                   subst h1
                   exact MainAppState.noConfusion hst)
    | Preview =>
      cases msg with
      | Camera cm =>
        cases cm <;>
          (simp only [updateCore, Option.some.injEq, Prod.mk.injEq] at hu
           obtain ⟨h1, -⟩ := hu
           subst h1
           exact MainAppState.noConfusion hst)
      | Tick tl1 tl2 =>
        simp only [updateCore, Option.some.injEq, Prod.mk.injEq] at hu
        obtain ⟨h1, -⟩ := hu
        subst h1
        exact MainAppState.noConfusion hst
      | KeyReleased k =>
        simp only [updateCore, Option.some.injEq, Prod.mk.injEq] at hu
        obtain ⟨h1, -⟩ := hu
        subst h1
        exact MainAppState.noConfusion hst
      | CaptureStill res =>
        cases res with
        | error e => exact Option.noConfusion hu
        | ok i =>
          simp only [updateCore, Option.some.injEq, Prod.mk.injEq] at hu
          obtain ⟨h1, -⟩ := hu
          subst h1
          exact MainAppState.noConfusion hst
      | Uploaded res =>
        cases res <;>
          (simp only [updateCore, Option.some.injEq, Prod.mk.injEq] at hu
           obtain ⟨h1, -⟩ := hu
           subst h1
           exact MainAppState.noConfusion hst)
      | Emailed res =>
        simp only [updateCore, Option.some.injEq, Prod.mk.injEq] at hu
        obtain ⟨h1, -⟩ := hu
        subst h1
        exact MainAppState.noConfusion hst
      | OtherKeyPress =>
        simp only [updateCore, Option.some.injEq, Prod.mk.injEq] at hu
        obtain ⟨h1, -⟩ := hu
        subst h1
        exact MainAppState.noConfusion hst
      | EmailInput s =>
        simp only [updateCore] at hu
        split at hu <;>
          (simp only [Option.some.injEq, Prod.mk.injEq] at hu
           obtain ⟨h1, -⟩ := hu
           subst h1
           exact MainAppState.noConfusion hst)
      | EmailSubmit =>
        simp only [updateCore] at hu
        split at hu
        · simp only [Option.some.injEq, Prod.mk.injEq] at hu
          obtain ⟨h1, -⟩ := hu
          subst h1
          exact MainAppState.noConfusion hst
        · split at hu
          · exact Option.noConfusion hu
          · split at hu
            · simp only [Option.some.injEq, Prod.mk.injEq] at hu
              obtain ⟨h1, -⟩ := hu
              subst h1
              exact MainAppState.noConfusion hst
            · split at hu
              · simp only [Option.some.injEq, Prod.mk.injEq] at hu
                obtain ⟨h1, -⟩ := hu
                subst h1
                exact MainAppState.noConfusion hst
              · split at hu <;>
                  (simp only [Option.some.injEq, Prod.mk.injEq] at hu
                   obtain ⟨h1, -⟩ := hu
                   subst h1
                   exact MainAppState.noConfusion hst)
    | CapturePhotosPrepare =>
      cases msg with
      | Camera cm =>
        cases cm <;>
          (simp only [updateCore, Option.some.injEq, Prod.mk.injEq] at hu
           obtain ⟨h1, -⟩ := hu
           subst h1
           exact MainAppState.noConfusion hst)
      | Tick tl1 tl2 =>
        simp only [updateCore] at hu
        split at hu <;>
          (simp only [Option.some.injEq, Prod.mk.injEq] at hu
           obtain ⟨h1, -⟩ := hu
           subst h1
           exact MainAppState.noConfusion hst)
      | KeyReleased k =>
        simp only [updateCore, Option.some.injEq, Prod.mk.injEq] at hu
        obtain ⟨h1, -⟩ := hu
        subst h1
        exact MainAppState.noConfusion hst
      | CaptureStill res =>
        cases res with
        | error e => exact Option.noConfusion hu
        | ok i =>
          simp only [updateCore, Option.some.injEq, Prod.mk.injEq] at hu
          obtain ⟨h1, -⟩ := hu
          subst h1
          exact MainAppState.noConfusion hst
      | Uploaded res =>
        cases res <;>
          (simp only [updateCore, Option.some.injEq, Prod.mk.injEq] at hu
           obtain ⟨h1, -⟩ := hu
           subst h1
           exact MainAppState.noConfusion hst)
      | Emailed res =>
        simp only [updateCore, Option.some.injEq, Prod.mk.injEq] at hu
        obtain ⟨h1, -⟩ := hu
        subst h1
        exact MainAppState.noConfusion hst
      | OtherKeyPress =>
        simp only [updateCore, Option.some.injEq, Prod.mk.injEq] at hu
        obtain ⟨h1, -⟩ := hu
        subst h1
        exact MainAppState.noConfusion hst
      | EmailInput s =>
        simp only [updateCore] at hu
        split at hu <;>
          (simp only [Option.some.injEq, Prod.mk.injEq] at hu
           obtain ⟨h1, -⟩ := hu
           subst h1
           exact MainAppState.noConfusion hst)
      | EmailSubmit =>
        simp only [updateCore] at hu
        split at hu
        · simp only [Option.some.injEq, Prod.mk.injEq] at hu
          obtain ⟨h1, -⟩ := hu
          subst h1
          exact MainAppState.noConfusion hst
        · split at hu
          · exact Option.noConfusion hu
          · split at hu
            · simp only [Option.some.injEq, Prod.mk.injEq] at hu
              obtain ⟨h1, -⟩ := hu
              subst h1
              exact MainAppState.noConfusion hst
            · split at hu
              · simp only [Option.some.injEq, Prod.mk.injEq] at hu
                obtain ⟨h1, -⟩ := hu
                subst h1
                exact MainAppState.noConfusion hst
              · split at hu <;>
                  (simp only [Option.some.injEq, Prod.mk.injEq] at hu
                   obtain ⟨h1, -⟩ := hu
                   subst h1
                   exact MainAppState.noConfusion hst)
    | EmailEntry =>
      cases msg with
      | Camera cm =>
        cases cm <;>
          (simp only [updateCore, Option.some.injEq, Prod.mk.injEq] at hu
           obtain ⟨h1, -⟩ := hu
           subst h1
           exact MainAppState.noConfusion hst)
      | Tick tl1 tl2 =>
        simp only [updateCore, Option.some.injEq, Prod.mk.injEq] at hu
        obtain ⟨h1, -⟩ := hu
        subst h1
        exact MainAppState.noConfusion hst
      | KeyReleased k =>
        simp only [updateCore, Option.some.injEq, Prod.mk.injEq] at hu
        obtain ⟨h1, -⟩ := hu
        subst h1
        exact MainAppState.noConfusion hst
      | CaptureStill res =>
        cases res with
        | error e => exact Option.noConfusion hu
        | ok i =>
          simp only [updateCore, Option.some.injEq, Prod.mk.injEq] at hu
          obtain ⟨h1, -⟩ := hu
          subst h1
          exact MainAppState.noConfusion hst
      | Uploaded res =>
        cases res <;>
          (simp only [updateCore, Option.some.injEq, Prod.mk.injEq] at hu
           obtain ⟨h1, -⟩ := hu
           subst h1
           exact MainAppState.noConfusion hst)
      | Emailed res =>
        simp only [updateCore, Option.some.injEq, Prod.mk.injEq] at hu
        obtain ⟨h1, -⟩ := hu
        subst h1
        exact MainAppState.noConfusion hst
      | OtherKeyPress =>
        simp only [updateCore, Option.some.injEq, Prod.mk.injEq] at hu
        obtain ⟨h1, -⟩ := hu
        subst h1
        exact MainAppState.noConfusion hst
      | EmailInput s =>
        simp only [updateCore] at hu
        split at hu <;>
          (simp only [Option.some.injEq, Prod.mk.injEq] at hu
           obtain ⟨h1, -⟩ := hu
           subst h1
           exact MainAppState.noConfusion hst)
      | EmailSubmit =>
        simp only [updateCore] at hu
        split at hu
        · simp only [Option.some.injEq, Prod.mk.injEq] at hu
          obtain ⟨h1, -⟩ := hu
          subst h1
          exact MainAppState.noConfusion hst
        · split at hu
          · exact Option.noConfusion hu
          · split at hu
            · simp only [Option.some.injEq, Prod.mk.injEq] at hu
              obtain ⟨h1, -⟩ := hu
              subst h1
              exact MainAppState.noConfusion hst
            · split at hu
              · simp only [Option.some.injEq, Prod.mk.injEq] at hu
                obtain ⟨h1, -⟩ := hu
                subst h1
                exact MainAppState.noConfusion hst
              · split at hu <;>
                  (simp only [Option.some.injEq, Prod.mk.injEq] at hu
                   obtain ⟨h1, -⟩ := hu
                   subst h1
                   exact MainAppState.noConfusion hst)
    | Emailing =>
      cases msg with
      | Camera cm =>
        cases cm <;>
          (simp only [updateCore, Option.some.injEq, Prod.mk.injEq] at hu
           obtain ⟨h1, -⟩ := hu
           subst h1
           exact MainAppState.noConfusion hst)
      | Tick tl1 tl2 =>
        simp only [updateCore, Option.some.injEq, Prod.mk.injEq] at hu
        obtain ⟨h1, -⟩ := hu
        subst h1
        exact MainAppState.noConfusion hst
      | KeyReleased k =>
        simp only [updateCore, Option.some.injEq, Prod.mk.injEq] at hu
        obtain ⟨h1, -⟩ := hu
        subst h1
        exact MainAppState.noConfusion hst
      | CaptureStill res =>
        cases res with
        | error e => exact Option.noConfusion hu
        | ok i =>
          simp only [updateCore, Option.some.injEq, Prod.mk.injEq] at hu
          obtain ⟨h1, -⟩ := hu
          subst h1
          exact MainAppState.noConfusion hst
      | Uploaded res =>
        cases res <;>
          (simp only [updateCore, Option.some.injEq, Prod.mk.injEq] at hu
           obtain ⟨h1, -⟩ := hu
           subst h1
           exact MainAppState.noConfusion hst)
      | Emailed res =>
        cases res with
        | ok b =>
          cases b <;>
            (simp only [updateCore, Option.some.injEq, Prod.mk.injEq] at hu
             obtain ⟨h1, -⟩ := hu
             subst h1
             exact MainAppState.noConfusion hst)
        | error e =>
          simp only [updateCore, Option.some.injEq, Prod.mk.injEq] at hu
          obtain ⟨h1, -⟩ := hu
          subst h1
          exact MainAppState.noConfusion hst
      | OtherKeyPress =>
        simp only [updateCore, Option.some.injEq, Prod.mk.injEq] at hu
        obtain ⟨h1, -⟩ := hu
        subst h1
        exact MainAppState.noConfusion hst
      | EmailInput s =>
        simp only [updateCore] at hu
        split at hu <;>
          (simp only [Option.some.injEq, Prod.mk.injEq] at hu
           obtain ⟨h1, -⟩ := hu
           subst h1
           exact MainAppState.noConfusion hst)
      | EmailSubmit =>
        simp only [updateCore] at hu
        split at hu
        · simp only [Option.some.injEq, Prod.mk.injEq] at hu
          obtain ⟨h1, -⟩ := hu
          subst h1
          exact MainAppState.noConfusion hst
        · split at hu
          · exact Option.noConfusion hu
          · split at hu
            · simp only [Option.some.injEq, Prod.mk.injEq] at hu
              obtain ⟨h1, -⟩ := hu
              subst h1
              exact MainAppState.noConfusion hst
            · split at hu
              · simp only [Option.some.injEq, Prod.mk.injEq] at hu
                obtain ⟨h1, -⟩ := hu
                subst h1
                exact MainAppState.noConfusion hst
              · split at hu <;>
                  (simp only [Option.some.injEq, Prod.mk.injEq] at hu
                   obtain ⟨h1, -⟩ := hu
                   subst h1
                   exact MainAppState.noConfusion hst)
    | CapturePhotos shot0 sub0 =>
      have hb : shot0 < 4 := h4 shot0 sub0 rfl
      cases msg with
      | Camera cm =>
        cases cm <;>
          (simp only [updateCore, Option.some.injEq, Prod.mk.injEq] at hu
           obtain ⟨h1, -⟩ := hu
           subst h1
           exact MainAppState.noConfusion hst)
      | Tick tl1 tl2 =>
        cases sub0 with
        | Countdown c =>
          simp only [updateCore] at hu
          split at hu
          · split at hu
            · exact Option.noConfusion hu
            · split at hu <;>
                (simp only [Option.some.injEq, Prod.mk.injEq] at hu
                 obtain ⟨h1, -⟩ := hu
                 subst h1
                 exact MainAppState.noConfusion hst)
          · simp only [Option.some.injEq, Prod.mk.injEq] at hu
            obtain ⟨h1, -⟩ := hu
            subst h1
            exact MainAppState.noConfusion hst
        | Capture =>
          simp only [updateCore] at hu
          split at hu
          · split at hu
            · exact Option.noConfusion hu
            · simp only [Option.some.injEq, Prod.mk.injEq] at hu
              obtain ⟨h1, -⟩ := hu
              subst h1
              exact MainAppState.noConfusion hst
          · simp only [Option.some.injEq, Prod.mk.injEq] at hu
            obtain ⟨h1, -⟩ := hu
            subst h1
            exact MainAppState.noConfusion hst
        | Preview i0 =>
          simp only [updateCore] at hu
          split at hu
          · rename_i htl
            split at hu
            · simp only [Option.some.injEq, Prod.mk.injEq] at hu
              obtain ⟨h1, -⟩ := hu
              subst h1
              exact MainAppState.noConfusion hst
            · rename_i hge
              split at hu
              · exact Option.noConfusion hu
              · rename_i strip heq
                subst htl
                simp only [Option.some.injEq, Prod.mk.injEq] at hu
                obtain ⟨h1, h2⟩ := hu
                subst h1
                have h3 : shot0 = 3 := by omega
                subst h3
                exact ⟨i0, tl2, rfl, rfl, render_take_some_length t cp strip heq,
                  strip, heq, h2.symm, rfl, rfl⟩
          · simp only [Option.some.injEq, Prod.mk.injEq] at hu
            obtain ⟨h1, -⟩ := hu
            subst h1
            exact MainAppState.noConfusion hst
      | KeyReleased k =>
        simp only [updateCore, Option.some.injEq, Prod.mk.injEq] at hu
        obtain ⟨h1, -⟩ := hu
        subst h1
        exact MainAppState.noConfusion hst
      | CaptureStill res =>
        cases res with
        | error e => exact Option.noConfusion hu
        | ok i =>
          simp only [updateCore, Option.some.injEq, Prod.mk.injEq] at hu
          obtain ⟨h1, -⟩ := hu
          subst h1
          exact MainAppState.noConfusion hst
      | Uploaded res =>
        cases res <;>
          (simp only [updateCore, Option.some.injEq, Prod.mk.injEq] at hu
           obtain ⟨h1, -⟩ := hu
           subst h1
           exact MainAppState.noConfusion hst)
      | Emailed res =>
        simp only [updateCore, Option.some.injEq, Prod.mk.injEq] at hu
        obtain ⟨h1, -⟩ := hu
        subst h1
        exact MainAppState.noConfusion hst
      | OtherKeyPress =>
        simp only [updateCore, Option.some.injEq, Prod.mk.injEq] at hu
        obtain ⟨h1, -⟩ := hu
        subst h1
        exact MainAppState.noConfusion hst
      | EmailInput s =>
        simp only [updateCore] at hu
        split at hu <;>
          (simp only [Option.some.injEq, Prod.mk.injEq] at hu
           obtain ⟨h1, -⟩ := hu
           subst h1
           exact MainAppState.noConfusion hst)
      | EmailSubmit =>
        simp only [updateCore] at hu
        split at hu
        · simp only [Option.some.injEq, Prod.mk.injEq] at hu
          obtain ⟨h1, -⟩ := hu
          subst h1
          exact MainAppState.noConfusion hst
        · split at hu
          · exact Option.noConfusion hu
          · split at hu
            · simp only [Option.some.injEq, Prod.mk.injEq] at hu
              obtain ⟨h1, -⟩ := hu
              subst h1
              exact MainAppState.noConfusion hst
            · split at hu
              · simp only [Option.some.injEq, Prod.mk.injEq] at hu
                obtain ⟨h1, -⟩ := hu
                subst h1
                exact MainAppState.noConfusion hst
              · split at hu <;>
                  (simp only [Option.some.injEq, Prod.mk.injEq] at hu
                   obtain ⟨h1, -⟩ := hu
                   subst h1
                   exact MainAppState.noConfusion hst)
  · intro app hr shot sub hS
    exact (reachable_inv H gl t app hr).2 shot sub hS

/-- Session about to start the first countdown. -/
def appPrep : MainApp String := mkApp .CapturePhotosPrepare [] none [] none

/-- Second shot, countdown showing 3. -/
def appCd3 : MainApp String := mkApp (.CapturePhotos 1 (.Countdown 3)) [img1] none [] none

/-- Third shot, countdown showing 1. -/
def appCd1 : MainApp String := mkApp (.CapturePhotos 2 (.Countdown 1)) [img1, img1] none [] none

/-- First shot, during its preview. -/
def appPrevShot : MainApp String := mkApp (.CapturePhotos 0 (.Preview img1)) [img1] none [] none

/-- The four captured photographs of the witness session. -/
def ph4 : List Img := [img1, img1, img1, img1]

/-- The composed strip of the witness session. -/
def strip4 : Img :=
  resize (renderCanvas t0 img1 img1 img1 img1) (t0.width / 3) (t0.height / 3)

/-- Fourth shot, during its preview, all four photographs captured. -/
def appPrev3 : MainApp String := mkApp (.CapturePhotos 3 (.Preview img1)) ph4 none [] none

/-- The session right after composing starts (entering RenderedPreview). -/
def appComposed : MainApp String :=
  { appPrev3 with
    captured_photos := []
    previews := ph4
    strip := some strip4
    strip_handle := some strip4
    upload_handle := none
    qr_code_data := none
    state := .RenderedPreview }

/-- Messages reaching the first shot's countdown at 2. -/
def msgsCapture : List (MainAppMessage String) :=
  [.KeyReleased .Space, .KeyReleased .Space, .Tick true true, .Tick true true]

/-- A concrete reachable state inside the capture ritual. -/
def captureApp : MainApp String :=
  (runMsgs String gl0 t0 (initApp String feed0) msgsCapture).getD (initApp String feed0)

theorem captureApp_reachable : Reachable String gl0 t0 captureApp :=
  runMsgs_reachable String gl0 t0 msgsCapture (initApp String feed0) captureApp
    (Reachable.init feed0)
    (option_eq_some_getD (runMsgs String gl0 t0 (initApp String feed0) msgsCapture)
      (initApp String feed0) rfl)

/-- Witness for C1 at concrete sessions for each conjunct. -/
theorem c1_witness :
    update String gl0 t0 appPrep (.Tick true true) =
        some ({ appPrep with state := .CapturePhotos 0 (.Countdown 3) }, .none) ∧
      update String gl0 t0 appCd3 (.Tick true true) =
        some ({ appCd3 with state := .CapturePhotos 1 (.Countdown 2) }, .none) ∧
      update String gl0 t0 appCd1 (.Tick true true) =
        some ({ appCd1 with state := .CapturePhotos 2 .Capture }, .captureStill) ∧
      update String gl0 t0 appPrevShot (.Tick true true) =
        some ({ appPrevShot with state := .CapturePhotos 1 (.Countdown 3) }, .none) ∧
      (∃ shot tl2, (.Tick true true : MainAppMessage String) = .Tick true tl2 ∧
        appCd1.state = .CapturePhotos shot (.Countdown 1)) ∧
      (∃ i tl2, (.Tick true true : MainAppMessage String) = .Tick true tl2 ∧
        appPrev3.state = .CapturePhotos 3 (.Preview i) ∧
        appPrev3.captured_photos.length = 4 ∧
        ∃ strip, render_take t0 appPrev3.captured_photos = some strip ∧
          ((appComposed, Cmd.upload strip4 ph4) : MainApp String × Cmd String).2 =
            .upload strip appPrev3.captured_photos ∧
          ((appComposed, Cmd.upload strip4 ph4) : MainApp String × Cmd String).1.previews =
            appPrev3.captured_photos ∧
          ((appComposed, Cmd.upload strip4 ph4) :
              MainApp String × Cmd String).1.captured_photos = []) ∧
      0 < 4 :=
  ⟨(c1_capture_sequencing String gl0 t0).1 appPrep true rfl rfl,
    (c1_capture_sequencing String gl0 t0).2.1 appCd3 1 3 true rfl rfl (by omega),
    (c1_capture_sequencing String gl0 t0).2.2.1 appCd1 2 true rfl rfl,
    (c1_capture_sequencing String gl0 t0).2.2.2.1 appPrevShot 0 img1 true rfl rfl (by omega),
    (c1_capture_sequencing String gl0 t0).2.2.2.2.1 appCd1 (.Tick true true)
      ({ appCd1 with state := .CapturePhotos 2 .Capture }, .captureStill) rfl rfl,
    (c1_capture_sequencing String gl0 t0).2.2.2.2.2.1 appPrev3 (.Tick true true)
      (appComposed, .upload strip4 ph4) rfl rfl (fun h => MainAppState.noConfusion h)
      (fun shot sub h => by cases h; omega),
    (c1_capture_sequencing String gl0 t0).2.2.2.2.2.2 captureApp captureApp_reachable 0
      (.Countdown 2) rfl⟩

end PhotoBooth
